import Mathlib

/-!
# Verification of the campaign execution engine (`src/app.py`)

Shallow embedding of the core of the LinkedIn outreach automation app:
the run-queue construction, the control surface (`start`/`pause`/`resume`/`stop`),
the worker loop with its pause polls, working-hours gate wait and pacing sleep,
the PhantomBuster action client (`launch_phantom`), the persistence ledger
(`save_processed_profiles_to_disk` / `load_processed_profiles_from_disk`),
and the metrics/ETA estimator (`compute_eta`).

Modelling conventions:
* Python floats are modelled as `ℚ` (the values involved are produced by
  bounded arithmetic on user inputs and random draws; no claim depends on
  float rounding).
* The worker thread's interactions with the outside world (the two
  `threading.Event` objects, `datetime.now()`, the HTTP layer, the random
  module, measured elapsed times and file-write outcomes) are modelled by an
  oracle `Env` indexed by a poll counter `tick`: every observation of the
  environment consumes one tick.  Wall-clock strings used only for display
  (log `time` fields) are modelled by the current tick.
* The unbounded `while` loops (pause polls, inter-action pacing sleep) take a
  fuel parameter; running out of fuel produces the `.inl` summand, which
  carries the exact state the Python thread would be stuck in (those loops
  mutate nothing except the poll counter), while `.inr` means the loop (or the
  whole worker) exited by itself.
* Display-only string interpolations that require float formatting
  (`round(delay/60,1)` in the extended-break INFO log) are abbreviated;
  every string whose content any claim depends on is reproduced verbatim.
-/

/-- One work item: a row of the uploaded CSV (`profileUrl`, `message`). -/
structure Item where
  profileUrl : String
  message : String
  deriving DecidableEq

/-- A JSON object, as far as the app inspects one: a flat string-to-string
field map (`resp.json()` / `data.get("containerId")`). -/
structure Json where
  fields : List (String × String)
  deriving DecidableEq

/-- `data.get(key)` on a parsed JSON object (`None` when absent). -/
def Json.get (j : Json) (k : String) : Option String :=
  j.fields.lookup k

/-- An HTTP response as seen by `launch_phantom`: status code, raw text and
the parsed JSON body (`none` when `resp.json()` would raise). -/
structure HttpResponse where
  status_code : Nat
  text : String
  jsonBody : Option Json
  deriving DecidableEq

/-- The request `launch_phantom` sends via `requests.post` (url, headers,
payload fields and the `timeout=30` keyword, from `src/app.py` lines 101-117). -/
structure LaunchRequest where
  url : String
  api_key : String
  profile_url : String
  message : String
  arg_delay : Nat
  maxRequestsPerDay : Nat
  randomizeDelay : Bool
  timeout : Nat
  deriving DecidableEq

/-- Result dictionary of `launch_phantom`:
`{"ok": True, "data": ...}` or `{"ok": False, "error": ...}`. -/
inductive LaunchResult where
  | ok (data : Json)
  | err (error : String)
  deriving DecidableEq

/-- The sidebar configuration plus credentials, as read by the worker
closure (globals `api_key`, `agent_id`, `start_hour`, `end_hour`,
`min_delay`, `max_delay`, `extended_break_chance`, `extended_break_min`,
`extended_break_max`). -/
structure Config where
  api_key : String
  agent_id : String
  start_hour : Nat
  end_hour : Nat
  min_delay : ℚ
  max_delay : ℚ
  extended_break_chance : Nat
  extended_break_min : ℚ
  extended_break_max : ℚ
  deriving DecidableEq

/-- The two components of `datetime.now()` that the code inspects:
`weekday()` (Monday = 0) and `hour`. -/
structure DateTime where
  weekday : Nat
  hour : Nat
  deriving DecidableEq

/-- `is_within_working_hours` (`src/app.py` lines 95-99). -/
def is_within_working_hours (cfg : Config) (now : DateTime) : Bool :=
  if 5 ≤ now.weekday then false
  else decide (cfg.start_hour ≤ now.hour ∧ now.hour < cfg.end_hour)

/-- `launch_phantom`'s request construction (`src/app.py` lines 102-115);
`rand_delay` is the `random.randint(3, 8)` draw. -/
def launch_request (api_key agent_id profile_url message : String)
    (rand_delay : Nat) : LaunchRequest :=
  { url := "https://api.phantombuster.com/api/v2/agents/" ++ agent_id ++ "/launch"
  , api_key := api_key
  , profile_url := profile_url
  , message := message
  , arg_delay := rand_delay
  , maxRequestsPerDay := 20
  , randomizeDelay := true
  , timeout := 30 }

/-- `launch_phantom` (`src/app.py` lines 101-122).  The network layer is the
oracle `net`; `.error e` models a raised `requests.exceptions.RequestException`
(which also covers a JSON-decode failure of a 200 response, since
`resp.json()` raises inside the same `try`). -/
def launch_phantom (net : LaunchRequest → Except String HttpResponse)
    (api_key agent_id profile_url message : String) (rand_delay : Nat) :
    LaunchResult :=
  match net (launch_request api_key agent_id profile_url message rand_delay) with
  | .error e => .err ("Network error: " ++ e)
  | .ok resp =>
    if resp.status_code = 200 then
      match resp.jsonBody with
      | some j => .ok j
      | none => .err ("Network error: response body is not valid JSON")
    else .err ("API Error: " ++ toString resp.status_code ++ " - " ++ resp.text)

/-- `save_processed_profiles_to_disk` (`src/app.py` lines 88-93): a write
that fails (`write_ok = false`, the swallowed `except Exception`) leaves the
file as it was; a successful write replaces it with the full set.  No log is
produced in either case. -/
def save_processed_profiles_to_disk (write_ok : Bool) (s : List String)
    (disk : List String) : List String :=
  if write_ok then s else disk

/-- `load_processed_profiles_from_disk` (`src/app.py` lines 79-86): missing
or corrupt file (`none`) loads as the empty set. -/
def load_processed_profiles_from_disk (file : Option (List String)) :
    List String :=
  match file with
  | none => []
  | some l => l

/-- One row of `st.session_state.logs` (`add_log`). -/
structure LogEvent where
  time : Nat
  profileUrl : Option String
  status : String
  details : String
  elapsed_sec : Option ℚ
  deriving DecidableEq

/-- `int()` truncation toward zero, as applied by `compute_eta`
(`seconds_left = int(remaining * ss.avg_secs)`). -/
def int_trunc (q : ℚ) : ℤ :=
  q.num.tdiv q.den

/-- `compute_eta` (`src/app.py` lines 128-134), on the session fields it
reads (`total`, `completed`, `avg_secs`).  Returns `(eta_sec, remaining)`. -/
def compute_eta (total completed : ℤ) (avg_secs : Option ℚ) :
    Option ℤ × ℤ :=
  let remaining := max (total - completed) 0
  match avg_secs with
  | none => (none, remaining)
  | some a =>
    if a ≤ 0 then (none, remaining)
    else (some (int_trunc (remaining * a)), remaining)

/-- The pacing model (`src/app.py` lines 285-287): base delay
`random.uniform(min_delay, max_delay)` with draw fraction `rBase ∈ [0,1]`,
extended with probability `extended_break_chance`% (draw `rChance ∈ [0,1)`)
by `random.uniform(extended_break_min, extended_break_max)` (fraction
`rExt`).  Returns the delay and the `isExtended` flag. -/
def next_delay (cfg : Config) (rBase rChance rExt : ℚ) : ℚ × Bool :=
  let delay := cfg.min_delay + rBase * (cfg.max_delay - cfg.min_delay)
  if rChance < (cfg.extended_break_chance : ℚ) / 100 then
    (delay + (cfg.extended_break_min + rExt * (cfg.extended_break_max - cfg.extended_break_min)),
     true)
  else (delay, false)

/-- `unprocessed_df = df[~df["profileUrl"].isin(ss.processed_profiles)]`
(`src/app.py` line 193): the run queue keeps the source order of the loaded
items, dropping those whose key is already processed. -/
def run_queue (df : List Item) (processed : List String) : List Item :=
  df.filter (fun row => ¬ processed.contains row.profileUrl)

/-- The session-state fields owned by the control surface
(`_init_state`, `src/app.py` lines 53-70).  `stop_event` / `pause_event`
hold the `threading.Event.is_set()` values (`pause_event` set means
running). -/
structure Session where
  df : Option (List Item)
  processed_profiles : List String
  logs : List LogEvent
  is_running : Bool
  is_paused : Bool
  is_stopped : Bool
  completed : Nat
  total : Nat
  avg_secs : Option ℚ
  stop_event : Bool
  pause_event : Bool
  deriving DecidableEq

/-- The derived UI status (`src/app.py` lines 365-367). -/
inductive ControlState where
  | Running
  | Paused
  | Stopped
  | Idle
  deriving DecidableEq

/-- `status` string computed for display (`src/app.py` lines 365-367). -/
def control_state (ss : Session) : ControlState :=
  if ss.is_running ∧ ¬ ss.is_paused then .Running
  else if ss.is_running ∧ ss.is_paused then .Paused
  else if ss.is_stopped then .Stopped
  else .Idle

/-- `start` (`src/app.py` lines 179-204) up to the point where the worker
thread is spawned.  Returns the updated session and `some rows` when a
worker thread was started on `rows` (the dedicated execution context),
`none` when the click was rejected.  The three rejection checks appear in
source order: no CSV loaded, missing credentials, already running. -/
def start (api_key agent_id : String) (ss : Session) :
    Session × Option (List Item) :=
  match ss.df with
  | none => (ss, none)
  | some df =>
    if api_key = "" ∨ agent_id = "" then (ss, none)
    else if ss.is_running then (ss, none)
    else
      let q := run_queue df ss.processed_profiles
      ({ ss with
          total := q.length
          completed := 0
          logs := []
          is_stopped := false
          stop_event := false
          pause_event := true
          is_paused := false
          is_running := true
          avg_secs := none }, some q)

/-- `pause` (`src/app.py` lines 319-323). -/
def pause (ss : Session) : Session :=
  if ss.is_running ∧ ¬ ss.is_paused then
    { ss with is_paused := true, pause_event := false }
  else ss

/-- `resume` (`src/app.py` lines 325-329). -/
def resume (ss : Session) : Session :=
  if ss.is_running ∧ ss.is_paused then
    { ss with is_paused := false, pause_event := true }
  else ss

/-- `stop` (`src/app.py` lines 331-338). -/
def stop (ss : Session) : Session :=
  if ss.is_running then
    { ss with
        is_stopped := true
        stop_event := true
        pause_event := true
        is_paused := false
        is_running := false }
  else ss

/-- The environment oracle seen by the worker thread.  Each field is a
stream indexed by the poll counter: `stop t` / `pause t` are the values
`stop_event.is_set()` / `pause_event.is_set()` return at the t-th
observation, `now t` the clock, `http t` the outcome of the
`requests.post` issued at that observation (a raised `RequestException`
is `.error`), `rand_uniform` / `rand_float` / `rand_int` the draws of
`random.uniform` (as a fraction of the interval), `random.random` and
`random.randint(3,8)`, `elapsed t` the measured per-action duration, and
`write_ok t` whether the ledger write issued at that observation
succeeds. -/
structure Env where
  stop : Nat → Bool
  pause : Nat → Bool
  now : Nat → DateTime
  http : Nat → Except String HttpResponse
  rand_uniform : Nat → ℚ
  rand_float : Nat → ℚ
  rand_int : Nat → Nat
  elapsed : Nat → ℚ
  write_ok : Nat → Bool

/-- The worker-visible mutable state: poll counter plus the session fields
the worker reads or writes (`logs`, `processed_profiles`, the ledger file,
`completed`, `avg_secs`, `is_running`). -/
structure WState where
  tick : Nat
  logs : List LogEvent
  processed : List String
  disk : List String
  completed : Nat
  avg_secs : Option ℚ
  is_running : Bool
  deriving DecidableEq

/-- Consume one environment observation. -/
def tickInc (s : WState) : WState :=
  { s with tick := s.tick + 1 }

/-- The `ss.is_running = False` executed when the worker function returns. -/
def finish (s : WState) : WState :=
  { s with is_running := false }

/-- `add_log` (`src/app.py` lines 124-126). -/
def add_log (s : WState) (e : LogEvent) : WState :=
  { s with logs := s.logs ++ [e] }

/-- `ss.processed_profiles.add(url)` of a Python `set`, on its list model:
append if absent. -/
def set_add (l : List String) (x : String) : List String :=
  if l.contains x then l else l ++ [x]

/-- The elapsed values of all terminal log rows: the comprehension
`[r for r in ss.logs if r["status"] in ("SUCCESS", "ERROR") and
r["elapsed_sec"] is not None]` (`src/app.py` line 280), projected to
`elapsed_sec`. -/
def terminal_elapsed (logs : List LogEvent) : List ℚ :=
  logs.filterMap fun r =>
    if r.status = "SUCCESS" ∨ r.status = "ERROR" then r.elapsed_sec else none

/-- The rolling-average update (`src/app.py` lines 280-282): mean of the
elapsed times of all timed terminal events, keeping the old value when
there are none. -/
def recompute_avg (logs : List LogEvent) (avg : Option ℚ) : Option ℚ :=
  let fin := terminal_elapsed logs
  if fin.isEmpty then avg else some (fin.sum / (fin.length : ℚ))

/-- Worker-loop results: `.inl s` means the thread is stuck forever inside
an unbounded poll loop (fuel exhausted) with observable state `s`; `.inr s`
means the loop exited by itself with state `s`. -/
abbrev Res := WState ⊕ WState

/-- The observable state of either outcome. -/
def Res.state : Res → WState
  | .inl s => s
  | .inr s => s

/-- Sequencing after an inner poll loop: a thread stuck in the inner loop is
stuck for good, otherwise continue from the loop's exit state. -/
def bindRes (r : Res) (f : WState → Res) : Res :=
  match r with
  | .inl s => .inl s
  | .inr s => f s

@[simp] theorem bindRes_inl (s : WState) (f : WState → Res) :
    bindRes (.inl s) f = .inl s := rfl

@[simp] theorem bindRes_inr (s : WState) (f : WState → Res) :
    bindRes (.inr s) f = f s := rfl

@[simp] theorem Res.state_inl (s : WState) : Res.state (.inl s) = s := rfl

@[simp] theorem Res.state_inr (s : WState) : Res.state (.inr s) = s := rfl

/-- Outcome of one stage of the per-item loop body: stuck forever in a poll
loop, `break` out of the item loop, or proceed. -/
inductive StepRes where
  | stuck (s : WState)
  | brk (s : WState)
  | next (s : WState)

/-- The observable state of a stage outcome. -/
def StepRes.state : StepRes → WState
  | .stuck s => s
  | .brk s => s
  | .next s => s

@[simp] theorem StepRes.state_stuck (s : WState) : StepRes.state (.stuck s) = s := rfl

@[simp] theorem StepRes.state_brk (s : WState) : StepRes.state (.brk s) = s := rfl

@[simp] theorem StepRes.state_next (s : WState) : StepRes.state (.next s) = s := rfl

/-- Sequencing a stage after an inner poll loop. -/
def res_to_step (r : Res) (f : WState → StepRes) : StepRes :=
  match r with
  | .inl s => .stuck s
  | .inr s => f s

@[simp] theorem res_to_step_inl (s : WState) (f : WState → StepRes) :
    res_to_step (.inl s) f = .stuck s := rfl

@[simp] theorem res_to_step_inr (s : WState) (f : WState → StepRes) :
    res_to_step (.inr s) f = f s := rfl

/-- Sequencing the item loop after a stage: `break` reaches the trailing
`ss.is_running = False` of the worker function. -/
def step_run (r : StepRes) (f : WState → Res) : Res :=
  match r with
  | .stuck s => .inl s
  | .brk s => .inr (finish s)
  | .next s => f s

@[simp] theorem step_run_stuck (s : WState) (f : WState → Res) :
    step_run (.stuck s) f = .inl s := rfl

@[simp] theorem step_run_brk (s : WState) (f : WState → Res) :
    step_run (.brk s) f = .inr (finish s) := rfl

@[simp] theorem step_run_next (s : WState) (f : WState → Res) :
    step_run (.next s) f = f s := rfl

/-- The pause poll `while not ss.pause_event.is_set(): time.sleep(0.2);
if ss.stop_event.is_set(): break` (`src/app.py` lines 212-215, reused at
233-236 and 302-305).  One fuel unit per loop iteration. -/
def pause_wait (env : Env) : Nat → WState → Res
  | fuel, s =>
    if env.pause s.tick then .inr (tickInc s)
    else
      match fuel with
      | 0 => .inl (tickInc s)
      | fuel + 1 =>
        if env.stop (tickInc s).tick then .inr (tickInc (tickInc s))
        else pause_wait env fuel (tickInc (tickInc s))

/-- The working-hours closed wait (`src/app.py` lines 230-237):
`for _ in range(60 * 60 // 2)` iterations of stop check, pause poll, and a
0.5 s sleep.  `k` is the remaining iteration count (started at 1800). -/
def gate_wait (env : Env) (n : Nat) : Nat → WState → Res
  | 0, s => .inr s
  | k + 1, s =>
    if env.stop s.tick then .inr (tickInc s)
    else bindRes (pause_wait env n (tickInc s)) (gate_wait env n k)

/-- The inter-action pacing sleep (`src/app.py` lines 297-309):
`while slept < delay` with `step = 0.25`, polling stop and pause each
increment. -/
def pacing_sleep (env : Env) (n : Nat) (delay : ℚ) :
    Nat → ℚ → WState → Res
  | fuel, slept, s =>
    if slept < delay then
      match fuel with
      | 0 => .inl s
      | fuel + 1 =>
        if env.stop s.tick then .inr (tickInc s)
        else
          bindRes (pause_wait env n (tickInc s)) (fun s1 =>
            if env.stop s1.tick then .inr (tickInc s1)
            else pacing_sleep env n delay fuel (slept + 1/4) (tickInc s1))
    else .inr s

/-- The per-item preamble (`src/app.py` lines 208-239): stop check, pause
poll, stop re-check, working-hours check with the 1800-step closed wait and
its trailing stop check.  `.next` means control reached the dispatch of the
current row (line 241). -/
def pre_item (env : Env) (cfg : Config) (n : Nat) (s : WState) : StepRes :=
  if env.stop s.tick then .brk (tickInc s)
  else
    res_to_step (pause_wait env n (tickInc s)) (fun s1 =>
      if env.stop s1.tick then .brk (tickInc s1)
      else
        if is_within_working_hours cfg (env.now (tickInc s1).tick) then
          .next (tickInc (tickInc s1))
        else
          res_to_step
            (gate_wait env n 1800
              (add_log (tickInc (tickInc s1))
                { time := (tickInc (tickInc s1)).tick, profileUrl := none
                , status := "WAIT"
                , details := "Outside working hours. Sleeping 1 hour."
                , elapsed_sec := none }))
            (fun s5 =>
              if env.stop s5.tick then .brk (tickInc s5)
              else .next (tickInc s5)))

/-- The START log row of a dispatch (`src/app.py` lines 244-250). -/
def start_event (s : WState) (url : String) : LogEvent :=
  { time := s.tick, profileUrl := some url, status := "START"
  , details := "Launching phantom…", elapsed_sec := none }

/-- Recording the action outcome (`src/app.py` lines 255-274): on success a
SUCCESS row, the ledger add and the synchronous save (one observation for
the write outcome); on failure an ERROR row. -/
def record_outcome (env : Env) (url : String) (res : LaunchResult)
    (elapsed : ℚ) (s : WState) : WState :=
  match res with
  | .ok data =>
    let s1 := add_log s
      { time := s.tick, profileUrl := some url, status := "SUCCESS"
      , details := "Container ID: " ++ ((data.get "containerId").getD "None")
      , elapsed_sec := some elapsed }
    let proc := set_add s1.processed url
    { s1 with
        processed := proc
        disk := save_processed_profiles_to_disk (env.write_ok s1.tick) proc s1.disk
        tick := s1.tick + 1 }
  | .err e =>
    add_log s
      { time := s.tick, profileUrl := some url, status := "ERROR"
      , details := e, elapsed_sec := some elapsed }

/-- The counter and rolling-average update (`src/app.py` lines 276-282). -/
def update_metrics (s : WState) : WState :=
  { s with
      completed := s.completed + 1
      avg_secs := recompute_avg s.logs s.avg_secs }

/-- The pacing stage (`src/app.py` lines 284-311): delay draw, optional
extended-break INFO row, the interruptible sleep, and the iteration's
trailing stop check. -/
def pacing_stage (env : Env) (cfg : Config) (n : Nat) (s : WState) : StepRes :=
  let d := next_delay cfg (env.rand_uniform s.tick)
      (env.rand_float (s.tick + 1)) (env.rand_uniform (s.tick + 2))
  let s1 := if d.2 then { s with tick := s.tick + 3 } else { s with tick := s.tick + 2 }
  let s2 :=
    if d.2 then
      add_log s1
        { time := s1.tick, profileUrl := none, status := "INFO"
        , details := "Extended break: ~" ++ toString (d.1 / 60) ++ " min"
        , elapsed_sec := none }
    else s1
  res_to_step (pacing_sleep env n d.1 n 0 s2) (fun s3 =>
    if env.stop s3.tick then .brk (tickInc s3) else .next (tickInc s3))

/-- The dispatch of one row (`src/app.py` lines 241-311): START log, the
action-client call, outcome recording, metrics update and pacing. -/
def dispatch_item (env : Env) (cfg : Config) (n : Nat) (row : Item)
    (s0 : WState) : StepRes :=
  let s := add_log s0 (start_event s0 row.profileUrl)
  pacing_stage env cfg n
    (update_metrics
      (record_outcome env row.profileUrl
        (launch_phantom (fun _ => env.http s.tick)
          cfg.api_key cfg.agent_id row.profileUrl row.message (env.rand_int s.tick))
        (env.elapsed s.tick)
        (tickInc s)))

/-- The worker loop (`src/app.py` lines 206-314): iterate the queue rows in
order, running the preamble and the dispatch for each; a `break` or queue
exhaustion reaches the trailing `ss.is_running = False`. -/
def worker (env : Env) (cfg : Config) (n : Nat) :
    List Item → WState → Res
  | [], s => .inr (finish s)
  | row :: rest, s =>
    step_run (pre_item env cfg n s) (fun r =>
      step_run (dispatch_item env cfg n row r) (worker env cfg n rest))

/-- The worker state at thread start (after `start` reset the metrics and
logs): fresh poll counter, empty logs, the shared in-memory processed set
and ledger file, `completed = 0`, no rolling average, running. -/
def init_wstate (processed disk : List String) : WState :=
  { tick := 0, logs := [], processed := processed, disk := disk
  , completed := 0, avg_secs := none, is_running := true }

/-- The keys of the items dispatched so far, in dispatch order: the
`profileUrl` fields of the START log rows. -/
def startUrls (logs : List LogEvent) : List String :=
  logs.filterMap fun e => if e.status = "START" then e.profileUrl else none

/-- Number of terminal (SUCCESS or ERROR) log rows. -/
def countTerm (logs : List LogEvent) : Nat :=
  logs.countP fun e => e.status == "SUCCESS" || e.status == "ERROR"

/-! ## State-preservation lemmas for the poll loops -/

/-- Forget the poll counter: the pause, gate-wait and pacing loops change
nothing else. -/
def sansTick (s : WState) : WState :=
  { s with tick := 0 }

theorem sansTick_tickInc (s : WState) : sansTick (tickInc s) = sansTick s := rfl

theorem pause_wait_sansTick (env : Env) :
    ∀ fuel s, sansTick (Res.state (pause_wait env fuel s)) = sansTick s := by
  intro fuel
  induction fuel with
  | zero =>
    intro s
    rw [pause_wait]
    split
    · rfl
    · rfl
  | succ fuel ih =>
    intro s
    rw [pause_wait]
    split
    · rfl
    · split
      · rfl
      · rw [ih]
        rfl

theorem gate_wait_sansTick (env : Env) (n : Nat) :
    ∀ k s, sansTick (Res.state (gate_wait env n k s)) = sansTick s := by
  intro k
  induction k with
  | zero => intro s; rfl
  | succ k ih =>
    intro s
    rw [gate_wait]
    split
    · rfl
    · have hpw := pause_wait_sansTick env n (tickInc s)
      cases h : pause_wait env n (tickInc s) with
      | inl s1 =>
        rw [h] at hpw
        simpa using hpw
      | inr s1 =>
        rw [h] at hpw
        rw [bindRes_inr, ih s1]
        simpa using hpw

theorem pacing_sleep_sansTick (env : Env) (n : Nat) (delay : ℚ) :
    ∀ fuel slept s,
      sansTick (Res.state (pacing_sleep env n delay fuel slept s)) = sansTick s := by
  intro fuel
  induction fuel with
  | zero =>
    intro slept s
    rw [pacing_sleep]
    split
    · rfl
    · rfl
  | succ fuel ih =>
    intro slept s
    rw [pacing_sleep]
    split
    · split
      · rfl
      · have hpw := pause_wait_sansTick env n (tickInc s)
        cases h : pause_wait env n (tickInc s) with
        | inl s1 =>
          rw [h] at hpw
          simpa using hpw
        | inr s1 =>
          rw [h] at hpw
          rw [bindRes_inr]
          simp only [Res.state_inr] at hpw
          split
          · simpa [sansTick_tickInc] using hpw
          · rw [ih]
            simpa [sansTick_tickInc] using hpw
    · rfl

theorem fields_of_sansTick {a b : WState} (h : sansTick a = sansTick b) :
    a.logs = b.logs ∧ a.processed = b.processed ∧ a.disk = b.disk ∧
    a.completed = b.completed ∧ a.avg_secs = b.avg_secs ∧
    a.is_running = b.is_running := by
  cases a
  cases b
  simp only [sansTick, WState.mk.injEq, true_and] at h
  exact ⟨h.1, h.2.1, h.2.2.1, h.2.2.2.1, h.2.2.2.2.1, h.2.2.2.2.2⟩

@[simp] theorem wait_ne_start : (("WAIT" : String) = "START") = False := by decide

@[simp] theorem success_ne_start : (("SUCCESS" : String) = "START") = False := by decide

@[simp] theorem error_ne_start : (("ERROR" : String) = "START") = False := by decide

@[simp] theorem info_ne_start : (("INFO" : String) = "START") = False := by decide

@[simp] theorem start_eq_start : (("START" : String) = "START") = True := by decide

@[simp] theorem beq_start_success : (("START" : String) == "SUCCESS") = false := by decide

@[simp] theorem beq_start_error : (("START" : String) == "ERROR") = false := by decide

@[simp] theorem beq_wait_success : (("WAIT" : String) == "SUCCESS") = false := by decide

@[simp] theorem beq_wait_error : (("WAIT" : String) == "ERROR") = false := by decide

@[simp] theorem beq_info_success : (("INFO" : String) == "SUCCESS") = false := by decide

@[simp] theorem beq_info_error : (("INFO" : String) == "ERROR") = false := by decide

@[simp] theorem beq_success_success : (("SUCCESS" : String) == "SUCCESS") = true := by decide

@[simp] theorem beq_error_success : (("ERROR" : String) == "SUCCESS") = false := by decide

@[simp] theorem beq_error_error : (("ERROR" : String) == "ERROR") = true := by decide

@[simp] theorem startUrls_nil : startUrls [] = [] := rfl

@[simp] theorem startUrls_append (l₁ l₂ : List LogEvent) :
    startUrls (l₁ ++ l₂) = startUrls l₁ ++ startUrls l₂ := by
  simp [startUrls]

@[simp] theorem countTerm_nil : countTerm [] = 0 := rfl

@[simp] theorem countTerm_append (l₁ l₂ : List LogEvent) :
    countTerm (l₁ ++ l₂) = countTerm l₁ + countTerm l₂ := by
  simp [countTerm, List.countP_append]

/-- Effects of the per-item preamble: it can only append a WAIT row to the
logs and touches no other observable field. -/
theorem pre_item_state (env : Env) (cfg : Config) (n : Nat) (s : WState) :
    startUrls ((pre_item env cfg n s).state.logs) = startUrls s.logs
  ∧ countTerm ((pre_item env cfg n s).state.logs) = countTerm s.logs
  ∧ (pre_item env cfg n s).state.processed = s.processed
  ∧ (pre_item env cfg n s).state.disk = s.disk
  ∧ (pre_item env cfg n s).state.completed = s.completed
  ∧ (pre_item env cfg n s).state.avg_secs = s.avg_secs
  ∧ (pre_item env cfg n s).state.is_running = s.is_running
  ∧ ∃ Δ, (pre_item env cfg n s).state.logs = s.logs ++ Δ := by
  rw [pre_item]
  split
  · exact ⟨rfl, rfl, rfl, rfl, rfl, rfl, rfl, [], by simp [tickInc]⟩
  · have hpw := pause_wait_sansTick env n (tickInc s)
    cases h : pause_wait env n (tickInc s) with
    | inl s1 =>
      rw [h] at hpw
      simp only [Res.state_inl] at hpw
      obtain ⟨hl, hp, hd, hc, ha, hr⟩ := fields_of_sansTick hpw
      simp only [res_to_step_inl, StepRes.state_stuck]
      exact ⟨by simp [hl, tickInc], by simp [hl, tickInc], hp, hd, hc, ha, hr,
        [], by simp [hl, tickInc]⟩
    | inr s1 =>
      rw [h] at hpw
      simp only [Res.state_inr] at hpw
      obtain ⟨hl, hp, hd, hc, ha, hr⟩ := fields_of_sansTick hpw
      simp only [res_to_step_inr]
      split
      · exact ⟨by simp [tickInc, hl], by simp [tickInc, hl], hp, hd, hc, ha, hr,
          [], by simp [tickInc, hl]⟩
      · split
        · exact ⟨by simp [tickInc, hl], by simp [tickInc, hl], hp, hd, hc, ha, hr,
            [], by simp [tickInc, hl]⟩
        · have hgw := gate_wait_sansTick env n 1800
            (add_log (tickInc (tickInc s1))
              { time := (tickInc (tickInc s1)).tick, profileUrl := none
              , status := "WAIT"
              , details := "Outside working hours. Sleeping 1 hour."
              , elapsed_sec := none })
          cases hg : gate_wait env n 1800
              (add_log (tickInc (tickInc s1))
                { time := (tickInc (tickInc s1)).tick, profileUrl := none
                , status := "WAIT"
                , details := "Outside working hours. Sleeping 1 hour."
                , elapsed_sec := none }) with
          | inl s5 =>
            rw [hg] at hgw
            simp only [Res.state_inl] at hgw
            obtain ⟨hl5, hp5, hd5, hc5, ha5, hr5⟩ := fields_of_sansTick hgw
            simp only [res_to_step_inl, StepRes.state_stuck]
            refine ⟨?_, ?_, ?_, ?_, ?_, ?_, ?_, ?_⟩
            · simp [hl5, add_log, tickInc, hl, startUrls]
            · simp [hl5, add_log, tickInc, hl, countTerm]
            · simp [hp5, add_log, tickInc, hp]
            · simp [hd5, add_log, tickInc, hd]
            · simp [hc5, add_log, tickInc, hc]
            · simp [ha5, add_log, tickInc, ha]
            · simp [hr5, add_log, tickInc, hr]
            · exact ⟨[{ time := s1.tick + 1 + 1, profileUrl := none
                      , status := "WAIT"
                      , details := "Outside working hours. Sleeping 1 hour."
                      , elapsed_sec := none }], by simp [hl5, add_log, tickInc, hl]⟩
          | inr s5 =>
            rw [hg] at hgw
            simp only [Res.state_inr] at hgw
            obtain ⟨hl5, hp5, hd5, hc5, ha5, hr5⟩ := fields_of_sansTick hgw
            simp only [res_to_step_inr]
            split
            all_goals {
              refine ⟨?_, ?_, ?_, ?_, ?_, ?_, ?_, ?_⟩
              · simp [tickInc, hl5, add_log, hl, startUrls]
              · simp [tickInc, hl5, add_log, hl, countTerm]
              · simp [tickInc, hp5, add_log, hp]
              · simp [tickInc, hd5, add_log, hd]
              · simp [tickInc, hc5, add_log, hc]
              · simp [tickInc, ha5, add_log, ha]
              · simp [tickInc, hr5, add_log, hr]
              · exact ⟨[{ time := s1.tick + 1 + 1, profileUrl := none
                        , status := "WAIT"
                        , details := "Outside working hours. Sleeping 1 hour."
                        , elapsed_sec := none }], by simp [tickInc, hl5, add_log, hl]⟩
            }

/-- The trailing stage of a dispatch (pacing sleep plus the iteration's last
stop check) changes nothing but the poll counter. -/
theorem dispatch_tail_sansTick (env : Env) (n fuel : Nat) (delay slept : ℚ)
    (s : WState) :
    sansTick ((res_to_step (pacing_sleep env n delay fuel slept s) (fun s1 =>
      if env.stop s1.tick then .brk (tickInc s1) else .next (tickInc s1))).state)
      = sansTick s := by
  have h := pacing_sleep_sansTick env n delay fuel slept s
  cases hp : pacing_sleep env n delay fuel slept s with
  | inl s1 =>
    rw [hp] at h
    simpa using h
  | inr s1 =>
    rw [hp] at h
    simp only [Res.state_inr] at h
    simp only [res_to_step_inr]
    split <;> simpa [sansTick_tickInc] using h

theorem dtail_logs (env : Env) (n fuel : Nat) (delay slept : ℚ) (s : WState) :
    ((res_to_step (pacing_sleep env n delay fuel slept s) (fun s1 =>
      if env.stop s1.tick then .brk (tickInc s1) else .next (tickInc s1))).state).logs
      = s.logs :=
  (fields_of_sansTick (dispatch_tail_sansTick env n fuel delay slept s)).1

theorem dtail_processed (env : Env) (n fuel : Nat) (delay slept : ℚ) (s : WState) :
    ((res_to_step (pacing_sleep env n delay fuel slept s) (fun s1 =>
      if env.stop s1.tick then .brk (tickInc s1) else .next (tickInc s1))).state).processed
      = s.processed :=
  (fields_of_sansTick (dispatch_tail_sansTick env n fuel delay slept s)).2.1

theorem dtail_disk (env : Env) (n fuel : Nat) (delay slept : ℚ) (s : WState) :
    ((res_to_step (pacing_sleep env n delay fuel slept s) (fun s1 =>
      if env.stop s1.tick then .brk (tickInc s1) else .next (tickInc s1))).state).disk
      = s.disk :=
  (fields_of_sansTick (dispatch_tail_sansTick env n fuel delay slept s)).2.2.1

theorem dtail_completed (env : Env) (n fuel : Nat) (delay slept : ℚ) (s : WState) :
    ((res_to_step (pacing_sleep env n delay fuel slept s) (fun s1 =>
      if env.stop s1.tick then .brk (tickInc s1) else .next (tickInc s1))).state).completed
      = s.completed :=
  (fields_of_sansTick (dispatch_tail_sansTick env n fuel delay slept s)).2.2.2.1

theorem dtail_avg (env : Env) (n fuel : Nat) (delay slept : ℚ) (s : WState) :
    ((res_to_step (pacing_sleep env n delay fuel slept s) (fun s1 =>
      if env.stop s1.tick then .brk (tickInc s1) else .next (tickInc s1))).state).avg_secs
      = s.avg_secs :=
  (fields_of_sansTick (dispatch_tail_sansTick env n fuel delay slept s)).2.2.2.2.1

theorem dtail_running (env : Env) (n fuel : Nat) (delay slept : ℚ) (s : WState) :
    ((res_to_step (pacing_sleep env n delay fuel slept s) (fun s1 =>
      if env.stop s1.tick then .brk (tickInc s1) else .next (tickInc s1))).state).is_running
      = s.is_running :=
  (fields_of_sansTick (dispatch_tail_sansTick env n fuel delay slept s)).2.2.2.2.2

/-- Effects of recording one action outcome: exactly one terminal row is
appended; counters and the run flag are untouched. -/
theorem record_outcome_state (env : Env) (url : String) (res : LaunchResult)
    (el : ℚ) (s : WState) :
    startUrls ((record_outcome env url res el s).logs) = startUrls s.logs
  ∧ countTerm ((record_outcome env url res el s).logs) = countTerm s.logs + 1
  ∧ (record_outcome env url res el s).completed = s.completed
  ∧ (record_outcome env url res el s).is_running = s.is_running
  ∧ ∃ Δ, (record_outcome env url res el s).logs = s.logs ++ Δ := by
  cases res with
  | ok data =>
    refine ⟨?_, ?_, ?_, ?_, ?_⟩
    · simp [record_outcome, add_log, startUrls]
    · simp [record_outcome, add_log, countTerm]
    · simp [record_outcome, add_log]
    · simp [record_outcome, add_log]
    · exact ⟨[{ time := s.tick, profileUrl := some url, status := "SUCCESS"
              , details := "Container ID: " ++ ((data.get "containerId").getD "None")
              , elapsed_sec := some el }], rfl⟩
  | err e =>
    refine ⟨?_, ?_, ?_, ?_, ?_⟩
    · simp [record_outcome, add_log, startUrls]
    · simp [record_outcome, add_log, countTerm]
    · simp [record_outcome, add_log]
    · simp [record_outcome, add_log]
    · exact ⟨[{ time := s.tick, profileUrl := some url, status := "ERROR"
              , details := e, elapsed_sec := some el }], rfl⟩

/-- Effects of the pacing stage: at most an INFO row is appended; counters
and the run flag are untouched. -/
theorem pacing_stage_state (env : Env) (cfg : Config) (n : Nat) (s : WState) :
    startUrls ((pacing_stage env cfg n s).state.logs) = startUrls s.logs
  ∧ countTerm ((pacing_stage env cfg n s).state.logs) = countTerm s.logs
  ∧ (pacing_stage env cfg n s).state.completed = s.completed
  ∧ (pacing_stage env cfg n s).state.is_running = s.is_running
  ∧ ∃ Δ, (pacing_stage env cfg n s).state.logs = s.logs ++ Δ := by
  rw [pacing_stage]
  rw [dtail_logs, dtail_completed, dtail_running]
  split <;> rename_i hd
  · simp only [hd, if_true]
    refine ⟨?_, ?_, ?_, ?_, ?_⟩
    · simp [add_log, startUrls]
    · simp [add_log, countTerm]
    · simp [add_log]
    · simp [add_log]
    · exact ⟨[{ time := s.tick + 3, profileUrl := none, status := "INFO"
              , details := "Extended break: ~" ++
                  toString ((next_delay cfg (env.rand_uniform s.tick)
                    (env.rand_float (s.tick + 1)) (env.rand_uniform (s.tick + 2))).1 / 60)
                  ++ " min"
              , elapsed_sec := none }], rfl⟩
  · simp only [hd]
    refine ⟨?_, ?_, ?_, ?_, ⟨[], ?_⟩⟩ <;> simp

@[simp] theorem update_metrics_logs (s : WState) :
    (update_metrics s).logs = s.logs := rfl

@[simp] theorem update_metrics_completed (s : WState) :
    (update_metrics s).completed = s.completed + 1 := rfl

@[simp] theorem update_metrics_running (s : WState) :
    (update_metrics s).is_running = s.is_running := rfl

@[simp] theorem update_metrics_processed (s : WState) :
    (update_metrics s).processed = s.processed := rfl

@[simp] theorem update_metrics_disk (s : WState) :
    (update_metrics s).disk = s.disk := rfl

@[simp] theorem update_metrics_tick (s : WState) :
    (update_metrics s).tick = s.tick := rfl

/-- Effects of one dispatch: a START row for this row's key followed by
exactly one terminal row (and possibly an INFO row); `completed` goes up by
one; the run flag is untouched. -/
theorem dispatch_item_state (env : Env) (cfg : Config) (n : Nat) (row : Item)
    (s : WState) :
    startUrls ((dispatch_item env cfg n row s).state.logs)
      = startUrls s.logs ++ [row.profileUrl]
  ∧ countTerm ((dispatch_item env cfg n row s).state.logs) = countTerm s.logs + 1
  ∧ (dispatch_item env cfg n row s).state.completed = s.completed + 1
  ∧ (dispatch_item env cfg n row s).state.is_running = s.is_running
  ∧ ((dispatch_item env cfg n row s).state.logs)[s.logs.length]?
      = some (start_event s row.profileUrl)
  ∧ ∃ Δ, (dispatch_item env cfg n row s).state.logs = s.logs ++ Δ := by
  have hro := record_outcome_state env row.profileUrl
    (launch_phantom (fun _ => env.http (add_log s (start_event s row.profileUrl)).tick)
      cfg.api_key cfg.agent_id row.profileUrl row.message
      (env.rand_int (add_log s (start_event s row.profileUrl)).tick))
    (env.elapsed (add_log s (start_event s row.profileUrl)).tick)
    (tickInc (add_log s (start_event s row.profileUrl)))
  obtain ⟨hs1, hc1, hm1, hr1, Δ₁, hΔ₁⟩ := hro
  have hps := pacing_stage_state env cfg n
    (update_metrics
      (record_outcome env row.profileUrl
        (launch_phantom (fun _ => env.http (add_log s (start_event s row.profileUrl)).tick)
          cfg.api_key cfg.agent_id row.profileUrl row.message
          (env.rand_int (add_log s (start_event s row.profileUrl)).tick))
        (env.elapsed (add_log s (start_event s row.profileUrl)).tick)
        (tickInc (add_log s (start_event s row.profileUrl)))))
  obtain ⟨hs2, hc2, hm2, hr2, Δ₂, hΔ₂⟩ := hps
  rw [dispatch_item]
  refine ⟨?_, ?_, ?_, ?_, ?_, ?_⟩
  · rw [hs2, update_metrics_logs, hs1]
    simp [tickInc, add_log, start_event, startUrls]
  · rw [hc2, update_metrics_logs, hc1]
    simp [tickInc, add_log, start_event, countTerm]
  · rw [hm2, update_metrics_completed, hm1]
    simp [tickInc, add_log]
  · rw [hr2, update_metrics_running, hr1]
    simp [tickInc, add_log]
  · rw [hΔ₂, update_metrics_logs, hΔ₁]
    have hx : (tickInc (add_log s (start_event s row.profileUrl))).logs
        = s.logs ++ [start_event s row.profileUrl] := rfl
    rw [hx, List.append_assoc, List.append_assoc]
    rw [List.getElem?_append_right (Nat.le_refl _)]
    simp
  · rw [hΔ₂, update_metrics_logs, hΔ₁]
    exact ⟨start_event s row.profileUrl :: (Δ₁ ++ Δ₂), by simp [tickInc, add_log]⟩

/-- Main induction over the worker loop: the dispatched keys are an initial
segment of the queue keys in queue order, and `completed` and the terminal
log rows advance in lockstep, bounded by the queue length. -/
theorem worker_effects (env : Env) (cfg : Config) (n : Nat) :
    ∀ (items : List Item) (s : WState),
      ∃ k m,
        startUrls ((worker env cfg n items s).state.logs)
          = startUrls s.logs ++ (items.map Item.profileUrl).take k
        ∧ countTerm ((worker env cfg n items s).state.logs) = countTerm s.logs + m
        ∧ (worker env cfg n items s).state.completed = s.completed + m
        ∧ m ≤ items.length
        ∧ ∃ Δ, (worker env cfg n items s).state.logs = s.logs ++ Δ := by
  intro items
  induction items with
  | nil =>
    intro s
    exact ⟨0, 0, by simp [worker, finish], by simp [worker, finish],
      by simp [worker, finish], by simp, [], by simp [worker, finish]⟩
  | cons row rest ih =>
    intro s
    rw [worker]
    obtain ⟨ps, pc, pp, pd, pcomp, pa, pr, Δ₀, pΔ⟩ := pre_item_state env cfg n s
    cases hpre : pre_item env cfg n s with
    | stuck r =>
      rw [hpre] at ps pc pcomp pΔ
      simp only [StepRes.state_stuck] at ps pc pcomp pΔ
      simp only [step_run_stuck, Res.state_inl]
      exact ⟨0, 0, by simp [ps], by simp [pc], by simp [pcomp], by simp,
        Δ₀, pΔ⟩
    | brk r =>
      rw [hpre] at ps pc pcomp pΔ
      simp only [StepRes.state_brk] at ps pc pcomp pΔ
      simp only [step_run_brk, Res.state_inr]
      exact ⟨0, 0, by simp [finish, ps], by simp [finish, pc],
        by simp [finish, pcomp], by simp, Δ₀, by simp [finish, pΔ]⟩
    | next r =>
      rw [hpre] at ps pc pcomp pΔ
      simp only [StepRes.state_next] at ps pc pcomp pΔ
      simp only [step_run_next]
      obtain ⟨ds, dc, dm, dr, dg, Δ₁, dΔ⟩ := dispatch_item_state env cfg n row r
      cases hd : dispatch_item env cfg n row r with
      | stuck r1 =>
        rw [hd] at ds dc dm dΔ
        simp only [StepRes.state_stuck] at ds dc dm dΔ
        simp only [step_run_stuck, Res.state_inl]
        refine ⟨1, 1, ?_, ?_, ?_, by simp, Δ₀ ++ Δ₁, ?_⟩
        · rw [ds, ps]; simp
        · rw [dc, pc]
        · rw [dm, pcomp]
        · rw [dΔ, pΔ]; simp
      | brk r1 =>
        rw [hd] at ds dc dm dΔ
        simp only [StepRes.state_brk] at ds dc dm dΔ
        simp only [step_run_brk, Res.state_inr]
        refine ⟨1, 1, ?_, ?_, ?_, by simp, Δ₀ ++ Δ₁, ?_⟩
        · simp only [finish]; rw [ds, ps]; simp
        · simp only [finish]; rw [dc, pc]
        · simp only [finish]; rw [dm, pcomp]
        · simp only [finish]; rw [dΔ, pΔ]; simp
      | next r1 =>
        rw [hd] at ds dc dm dΔ
        simp only [StepRes.state_next] at ds dc dm dΔ
        simp only [step_run_next]
        obtain ⟨k', m', ws, wc, wm, wb, Δ₂, wΔ⟩ := ih r1
        refine ⟨k' + 1, m' + 1, ?_, ?_, ?_, by simpa using wb, Δ₀ ++ Δ₁ ++ Δ₂, ?_⟩
        · rw [ws, ds, ps]
          simp [List.take_succ_cons]
        · rw [wc, dc, pc]
          omega
        · rw [wm, dm, pcomp]
          omega
        · rw [wΔ, dΔ, pΔ]
          simp

theorem res_to_step_brk {r : Res} {f : WState → StepRes} {x : WState}
    (h : res_to_step r f = .brk x) : ∃ s', r = .inr s' ∧ f s' = .brk x := by
  cases r with
  | inl s => simp [res_to_step] at h
  | inr s => exact ⟨s, rfl, h⟩

/-- A `break` out of the item loop can only be caused by an observed stop
signal: the pacing stage never breaks when the stop stream is silent. -/
theorem pacing_stage_brk_stop {env : Env} {cfg : Config} {n : Nat}
    {s r : WState} (h : pacing_stage env cfg n s = .brk r) :
    ∃ t, env.stop t = true := by
  rw [pacing_stage] at h
  obtain ⟨s3, -, hf⟩ := res_to_step_brk h
  by_cases h2 : env.stop s3.tick = true
  · exact ⟨_, h2⟩
  · simp only [h2, if_false, Bool.false_eq_true] at hf
    cases hf

/-- A dispatch never breaks when the stop stream is silent. -/
theorem dispatch_item_brk_stop {env : Env} {cfg : Config} {n : Nat}
    {row : Item} {s r : WState} (h : dispatch_item env cfg n row s = .brk r) :
    ∃ t, env.stop t = true := by
  rw [dispatch_item] at h
  exact pacing_stage_brk_stop h

/-- The per-item preamble never breaks when the stop stream is silent. -/
theorem pre_item_brk_stop {env : Env} {cfg : Config} {n : Nat}
    {s r : WState} (h : pre_item env cfg n s = .brk r) :
    ∃ t, env.stop t = true := by
  rw [pre_item] at h
  by_cases h1 : env.stop s.tick = true
  · exact ⟨_, h1⟩
  · rw [if_neg h1] at h
    obtain ⟨s1, -, hf⟩ := res_to_step_brk h
    by_cases h2 : env.stop s1.tick = true
    · exact ⟨_, h2⟩
    · rw [if_neg h2] at hf
      split at hf
      · cases hf
      · obtain ⟨s5, -, hg⟩ := res_to_step_brk hf
        by_cases h3 : env.stop s5.tick = true
        · exact ⟨_, h3⟩
        · rw [if_neg h3] at hg
          cases hg

/-- When the stop signal is never raised in a run that terminates by
itself, every queue item is dispatched, in queue order, duplicates
included: the loop body contains no membership re-check and no skip. -/
theorem worker_no_stop {env : Env} (cfg : Config) (n : Nat)
    (hstop : ∀ t, env.stop t = false) :
    ∀ (items : List Item) (s r : WState),
      worker env cfg n items s = .inr r →
      startUrls r.logs = startUrls s.logs ++ items.map Item.profileUrl := by
  intro items
  induction items with
  | nil =>
    intro s r h
    rw [worker] at h
    cases h
    simp [finish]
  | cons row rest ih =>
    intro s r h
    rw [worker] at h
    obtain ⟨ps, pc, pp, pd, pcomp, pa, pr, Δ₀, pΔ⟩ := pre_item_state env cfg n s
    cases hpre : pre_item env cfg n s with
    | stuck r0 =>
      rw [hpre, step_run_stuck] at h
      cases h
    | brk r0 =>
      obtain ⟨t, ht⟩ := pre_item_brk_stop hpre
      rw [hstop t] at ht
      cases ht
    | next r0 =>
      rw [hpre, step_run_next] at h
      rw [hpre] at ps
      simp only [StepRes.state_next] at ps
      obtain ⟨ds, dc, dm, dr, dg, Δ₁, dΔ⟩ := dispatch_item_state env cfg n row r0
      cases hd : dispatch_item env cfg n row r0 with
      | stuck r1 =>
        rw [hd, step_run_stuck] at h
        cases h
      | brk r1 =>
        obtain ⟨t, ht⟩ := dispatch_item_brk_stop hd
        rw [hstop t] at ht
        cases ht
      | next r1 =>
        rw [hd, step_run_next] at h
        rw [hd] at ds
        simp only [StepRes.state_next] at ds
        rw [ih r1 r h, ds, ps]
        simp

/-! ## The ledger file and the write outcomes never influence the run -/

/-- Forget the ledger file: all observable behavior of the worker except
the file itself is invariant under write outcomes and file contents. -/
def scrub (s : WState) : WState :=
  { s with disk := [] }

/-- `scrub` applied under either loop outcome. -/
def scrubR : Res → Res :=
  Sum.map scrub scrub

/-- `scrub` applied under a stage outcome. -/
def scrubS : StepRes → StepRes
  | .stuck s => .stuck (scrub s)
  | .brk s => .brk (scrub s)
  | .next s => .next (scrub s)

@[simp] theorem scrubR_inl (s : WState) : scrubR (.inl s) = .inl (scrub s) := rfl

@[simp] theorem scrubR_inr (s : WState) : scrubR (.inr s) = .inr (scrub s) := rfl

@[simp] theorem scrubS_stuck (s : WState) : scrubS (.stuck s) = .stuck (scrub s) := rfl

@[simp] theorem scrubS_brk (s : WState) : scrubS (.brk s) = .brk (scrub s) := rfl

@[simp] theorem scrubS_next (s : WState) : scrubS (.next s) = .next (scrub s) := rfl

theorem scrub_fields {a b : WState} (h : scrub a = scrub b) :
    a.tick = b.tick ∧ a.logs = b.logs ∧ a.processed = b.processed ∧
    a.completed = b.completed ∧ a.avg_secs = b.avg_secs ∧
    a.is_running = b.is_running := by
  cases a
  cases b
  simp only [scrub, WState.mk.injEq, and_true, true_and] at h
  exact ⟨h.1, h.2.1, h.2.2.1, h.2.2.2.1, h.2.2.2.2.1, h.2.2.2.2.2⟩

theorem scrub_tickInc {a b : WState} (h : scrub a = scrub b) :
    scrub (tickInc a) = scrub (tickInc b) := by
  obtain ⟨ht, hl, hp, hc, ha, hr⟩ := scrub_fields h
  simp [scrub, tickInc, ht, hl, hp, hc, ha, hr]

theorem scrub_finish {a b : WState} (h : scrub a = scrub b) :
    scrub (finish a) = scrub (finish b) := by
  obtain ⟨ht, hl, hp, hc, ha, hr⟩ := scrub_fields h
  simp [scrub, finish, ht, hl, hp, hc, ha, hr]

theorem res_to_step_scrub {A' A : Res} {f' f : WState → StepRes}
    (hA : scrubR A' = scrubR A)
    (hf : ∀ a' a, scrub a' = scrub a → scrubS (f' a') = scrubS (f a)) :
    scrubS (res_to_step A' f') = scrubS (res_to_step A f) := by
  cases A' with
  | inl a' =>
    cases A with
    | inl a =>
      simp only [scrubR_inl, Sum.inl.injEq] at hA
      simp [res_to_step, hA]
    | inr a => simp [scrubR] at hA
  | inr a' =>
    cases A with
    | inl a => simp [scrubR] at hA
    | inr a =>
      simp only [scrubR_inr, Sum.inr.injEq] at hA
      simpa [res_to_step] using hf a' a hA

theorem step_run_scrub {A' A : StepRes} {f' f : WState → Res}
    (hA : scrubS A' = scrubS A)
    (hf : ∀ a' a, scrub a' = scrub a → scrubR (f' a') = scrubR (f a)) :
    scrubR (step_run A' f') = scrubR (step_run A f) := by
  cases A' <;> cases A <;> simp only [scrubS_stuck, scrubS_brk, scrubS_next,
    StepRes.stuck.injEq, StepRes.brk.injEq, StepRes.next.injEq] at hA
  case stuck.stuck a' a => simp [step_run, hA]
  case brk.brk a' a => simp [step_run, scrub_finish hA]
  case next.next a' a => simpa [step_run] using hf a' a hA
  all_goals cases hA

theorem bindRes_scrub {A' A : Res} {f' f : WState → Res}
    (hA : scrubR A' = scrubR A)
    (hf : ∀ a' a, scrub a' = scrub a → scrubR (f' a') = scrubR (f a)) :
    scrubR (bindRes A' f') = scrubR (bindRes A f) := by
  cases A' with
  | inl a' =>
    cases A with
    | inl a =>
      simp only [scrubR_inl, Sum.inl.injEq] at hA
      simp [bindRes, hA]
    | inr a => simp [scrubR] at hA
  | inr a' =>
    cases A with
    | inl a => simp [scrubR] at hA
    | inr a =>
      simp only [scrubR_inr, Sum.inr.injEq] at hA
      simpa [bindRes] using hf a' a hA

theorem pause_wait_scrub (env : Env) (w : Nat → Bool) :
    ∀ (fuel : Nat) (s s' : WState), scrub s' = scrub s →
      scrubR (pause_wait { env with write_ok := w } fuel s')
        = scrubR (pause_wait env fuel s) := by
  intro fuel
  induction fuel with
  | zero =>
    intro s s' h
    obtain ⟨ht, hl, hp, hc, ha, hr⟩ := scrub_fields h
    rw [pause_wait, pause_wait]
    by_cases hp0 : env.pause s.tick = true
    · simp [ht, hp0, scrub, tickInc, hl, hp, hc, ha, hr]
    · simp [ht, hp0, scrub, tickInc, hl, hp, hc, ha, hr]
  | succ fuel ih =>
    intro s s' h
    obtain ⟨ht, hl, hp, hc, ha, hr⟩ := scrub_fields h
    have h2 : scrub (tickInc (tickInc s')) = scrub (tickInc (tickInc s)) :=
      scrub_tickInc (scrub_tickInc h)
    rw [pause_wait, pause_wait]
    by_cases hp0 : env.pause s.tick = true
    · simp [ht, hp0, scrub, tickInc, hl, hp, hc, ha, hr]
    · by_cases hs0 : env.stop (s.tick + 1) = true
      · simp [ht, hp0, hs0, scrub, tickInc, hl, hp, hc, ha, hr]
      · simp only [ht, hp0, hs0, tickInc, if_false, Bool.false_eq_true]
        simpa [tickInc, ht, hp0, hs0] using ih (tickInc (tickInc s)) (tickInc (tickInc s')) h2

theorem envW_stop (env : Env) (w : Nat → Bool) :
    ({ env with write_ok := w } : Env).stop = env.stop := rfl

theorem envW_pause (env : Env) (w : Nat → Bool) :
    ({ env with write_ok := w } : Env).pause = env.pause := rfl

theorem envW_now (env : Env) (w : Nat → Bool) :
    ({ env with write_ok := w } : Env).now = env.now := rfl

theorem envW_http (env : Env) (w : Nat → Bool) :
    ({ env with write_ok := w } : Env).http = env.http := rfl

theorem envW_ru (env : Env) (w : Nat → Bool) :
    ({ env with write_ok := w } : Env).rand_uniform = env.rand_uniform := rfl

theorem envW_rf (env : Env) (w : Nat → Bool) :
    ({ env with write_ok := w } : Env).rand_float = env.rand_float := rfl

theorem envW_ri (env : Env) (w : Nat → Bool) :
    ({ env with write_ok := w } : Env).rand_int = env.rand_int := rfl

theorem envW_el (env : Env) (w : Nat → Bool) :
    ({ env with write_ok := w } : Env).elapsed = env.elapsed := rfl

theorem gate_wait_scrub (env : Env) (w : Nat → Bool) (n : Nat) :
    ∀ (k : Nat) (s s' : WState), scrub s' = scrub s →
      scrubR (gate_wait { env with write_ok := w } n k s')
        = scrubR (gate_wait env n k s) := by
  intro k
  induction k with
  | zero =>
    intro s s' h
    rw [gate_wait, gate_wait]
    simp [h]
  | succ k ih =>
    intro s s' h
    obtain ⟨ht, hl, hp, hc, ha, hr⟩ := scrub_fields h
    rw [gate_wait, gate_wait]
    rw [envW_stop, ht]
    by_cases hs0 : env.stop s.tick = true
    · simp [hs0, scrub_tickInc h]
    · simp only [hs0, if_false, Bool.false_eq_true]
      exact bindRes_scrub
        (pause_wait_scrub env w n (tickInc s) (tickInc s') (scrub_tickInc h))
        (fun a' a hA => ih a a' hA)

theorem pacing_sleep_scrub (env : Env) (w : Nat → Bool) (n : Nat) (delay : ℚ) :
    ∀ (fuel : Nat) (slept : ℚ) (s s' : WState), scrub s' = scrub s →
      scrubR (pacing_sleep { env with write_ok := w } n delay fuel slept s')
        = scrubR (pacing_sleep env n delay fuel slept s) := by
  intro fuel
  induction fuel with
  | zero =>
    intro slept s s' h
    rw [pacing_sleep, pacing_sleep]
    by_cases hsl : slept < delay
    · simp [hsl, h]
    · simp [hsl, h]
  | succ fuel ih =>
    intro slept s s' h
    obtain ⟨ht, hl, hp, hc, ha, hr⟩ := scrub_fields h
    rw [pacing_sleep, pacing_sleep]
    by_cases hsl : slept < delay
    · simp only [hsl, if_true]
      rw [envW_stop, ht]
      by_cases hs0 : env.stop s.tick = true
      · simp [hs0, scrub_tickInc h]
      · simp only [hs0, if_false, Bool.false_eq_true]
        refine bindRes_scrub
          (pause_wait_scrub env w n (tickInc s) (tickInc s') (scrub_tickInc h))
          (fun a' a hA => ?_)
        obtain ⟨ht1, hl1, hp1, hc1, ha1, hr1⟩ := scrub_fields hA
        rw [envW_stop, ht1]
        by_cases hs1 : env.stop a.tick = true
        · simp [hs1, scrub_tickInc hA]
        · simp only [hs1, if_false, Bool.false_eq_true]
          exact ih (slept + 1/4) (tickInc a) (tickInc a') (scrub_tickInc hA)
    · simp [hsl, h]

theorem pre_item_scrub (env : Env) (w : Nat → Bool) (cfg : Config) (n : Nat)
    (s s' : WState) (h : scrub s' = scrub s) :
    scrubS (pre_item { env with write_ok := w } cfg n s')
      = scrubS (pre_item env cfg n s) := by
  obtain ⟨ht, hl, hp, hc, ha, hr⟩ := scrub_fields h
  rw [pre_item, pre_item]
  rw [envW_stop, ht]
  by_cases hs0 : env.stop s.tick = true
  · simp [hs0, scrub_tickInc h]
  · simp only [hs0, if_false, Bool.false_eq_true]
    refine res_to_step_scrub
      (pause_wait_scrub env w n (tickInc s) (tickInc s') (scrub_tickInc h))
      (fun a' a hA => ?_)
    obtain ⟨ht1, hl1, hp1, hc1, ha1, hr1⟩ := scrub_fields hA
    rw [envW_stop, ht1]
    by_cases hs1 : env.stop a.tick = true
    · simp [hs1, scrub_tickInc hA]
    · simp only [hs1, if_false, Bool.false_eq_true]
      rw [envW_now]
      have ht2 : (tickInc a').tick = (tickInc a).tick := by simp [tickInc, ht1]
      rw [ht2]
      by_cases hg0 : is_within_working_hours cfg (env.now (tickInc a).tick) = true
      · simp [hg0, scrub_tickInc (scrub_tickInc hA)]
      · simp only [hg0, if_false, Bool.false_eq_true]
        have hAdd : scrub (add_log (tickInc (tickInc a'))
            { time := (tickInc (tickInc a')).tick, profileUrl := none
            , status := "WAIT"
            , details := "Outside working hours. Sleeping 1 hour."
            , elapsed_sec := none })
            = scrub (add_log (tickInc (tickInc a))
            { time := (tickInc (tickInc a)).tick, profileUrl := none
            , status := "WAIT"
            , details := "Outside working hours. Sleeping 1 hour."
            , elapsed_sec := none }) := by
          simp [scrub, add_log, tickInc, ht1, hl1, hp1, hc1, ha1, hr1]
        refine res_to_step_scrub (gate_wait_scrub env w n 1800 _ _ hAdd)
          (fun b' b hB => ?_)
        obtain ⟨ht5, hl5, hp5, hc5, ha5, hr5⟩ := scrub_fields hB
        rw [envW_stop, ht5]
        by_cases hs5 : env.stop b.tick = true
        · simp [hs5, scrub_tickInc hB]
        · simp [hs5, scrub_tickInc hB]

theorem record_outcome_scrub (env : Env) (w : Nat → Bool) (url : String)
    (res : LaunchResult) (el : ℚ) (s s' : WState) (h : scrub s' = scrub s) :
    scrub (record_outcome { env with write_ok := w } url res el s')
      = scrub (record_outcome env url res el s) := by
  obtain ⟨ht, hl, hp, hc, ha, hr⟩ := scrub_fields h
  cases res with
  | ok data => simp [record_outcome, scrub, add_log, ht, hl, hp, hc, ha, hr]
  | err e => simp [record_outcome, scrub, add_log, ht, hl, hp, hc, ha, hr]

theorem update_metrics_scrub {s s' : WState} (h : scrub s' = scrub s) :
    scrub (update_metrics s') = scrub (update_metrics s) := by
  obtain ⟨ht, hl, hp, hc, ha, hr⟩ := scrub_fields h
  simp [update_metrics, scrub, ht, hl, hp, hc, ha, hr]

theorem pacing_stage_scrub (env : Env) (w : Nat → Bool) (cfg : Config)
    (n : Nat) (s s' : WState) (h : scrub s' = scrub s) :
    scrubS (pacing_stage { env with write_ok := w } cfg n s')
      = scrubS (pacing_stage env cfg n s) := by
  obtain ⟨ht, hl, hp, hc, ha, hr⟩ := scrub_fields h
  rw [pacing_stage, pacing_stage]
  rw [envW_ru, envW_rf, envW_ri, ht]
  by_cases hd : (next_delay cfg (env.rand_uniform s.tick)
      (env.rand_float (s.tick + 1)) (env.rand_uniform (s.tick + 2))).2 = true
  · simp only [hd, if_true]
    refine res_to_step_scrub (pacing_sleep_scrub env w n _ n 0 _ _ ?_)
      (fun a' a hA => ?_)
    · simp [scrub, add_log, ht, hl, hp, hc, ha, hr]
    · obtain ⟨ht1, hl1, hp1, hc1, ha1, hr1⟩ := scrub_fields hA
      rw [envW_stop, ht1]
      by_cases hs1 : env.stop a.tick = true
      · simp [hs1, scrub_tickInc hA]
      · simp [hs1, scrub_tickInc hA]
  · simp only [hd, if_false, Bool.false_eq_true]
    refine res_to_step_scrub (pacing_sleep_scrub env w n _ n 0 _ _ ?_)
      (fun a' a hA => ?_)
    · simp [scrub, ht, hl, hp, hc, ha, hr]
    · obtain ⟨ht1, hl1, hp1, hc1, ha1, hr1⟩ := scrub_fields hA
      rw [envW_stop, ht1]
      by_cases hs1 : env.stop a.tick = true
      · simp [hs1, scrub_tickInc hA]
      · simp [hs1, scrub_tickInc hA]

theorem dispatch_item_scrub (env : Env) (w : Nat → Bool) (cfg : Config)
    (n : Nat) (row : Item) (s s' : WState) (h : scrub s' = scrub s) :
    scrubS (dispatch_item { env with write_ok := w } cfg n row s')
      = scrubS (dispatch_item env cfg n row s) := by
  obtain ⟨ht, hl, hp, hc, ha, hr⟩ := scrub_fields h
  rw [dispatch_item, dispatch_item]
  have hAdd : scrub (add_log s' (start_event s' row.profileUrl))
      = scrub (add_log s (start_event s row.profileUrl)) := by
    simp [scrub, add_log, start_event, ht, hl, hp, hc, ha, hr]
  have htick : (add_log s' (start_event s' row.profileUrl)).tick
      = (add_log s (start_event s row.profileUrl)).tick := by
    simp [add_log, ht]
  rw [envW_http, envW_ri, envW_el, htick]
  exact pacing_stage_scrub env w cfg n _ _
    (update_metrics_scrub (record_outcome_scrub env w row.profileUrl _ _ _ _
      (scrub_tickInc hAdd)))

/-- The whole run is invariant, in everything except the ledger file
itself, under any change of the write outcomes and of the initial file
contents: a failed `save_processed_profiles_to_disk` is silent (no log
row) and not fatal (identical control flow, counters and in-memory set). -/
theorem worker_scrub (env : Env) (w : Nat → Bool) (cfg : Config) (n : Nat) :
    ∀ (items : List Item) (s s' : WState), scrub s' = scrub s →
      scrubR (worker { env with write_ok := w } cfg n items s')
        = scrubR (worker env cfg n items s) := by
  intro items
  induction items with
  | nil =>
    intro s s' h
    rw [worker, worker]
    simp [scrub_finish h]
  | cons row rest ih =>
    intro s s' h
    rw [worker, worker]
    refine step_run_scrub (pre_item_scrub env w cfg n s s' h)
      (fun a' a hA => ?_)
    exact step_run_scrub (dispatch_item_scrub env w cfg n row a a' hA)
      (fun b' b hB => ih b b' hB)

/-! ## Deterministic forms under a silent stop stream and an open pause gate -/

theorem pause_wait_free (env : Env) (fuel : Nat) (s : WState)
    (h : env.pause s.tick = true) :
    pause_wait env fuel s = .inr (tickInc s) := by
  rw [pause_wait.eq_def]
  simp [h]

/-- With no stop and no pause, the closed-gate wait runs all its
iterations, two observations each, and exits by itself: a bounded wait of
`2 * k` poll increments. -/
theorem gate_wait_free (env : Env) (n : Nat)
    (hstop : ∀ t, env.stop t = false) (hpause : ∀ t, env.pause t = true) :
    ∀ (k : Nat) (s : WState),
      gate_wait env n k s = .inr { s with tick := s.tick + 2 * k } := by
  intro k
  induction k with
  | zero =>
    intro s
    cases s
    rw [gate_wait]
    simp
  | succ k ih =>
    intro s
    rw [gate_wait]
    rw [hstop s.tick]
    simp only [Bool.false_eq_true, if_false]
    rw [pause_wait_free env n (tickInc s) (hpause _), bindRes_inr, ih]
    have harith : s.tick + 1 + 1 + 2 * k = s.tick + 2 * (k + 1) := by omega
    simp [tickInc, harith]

/-- With no stop and no pause, a closed gate at dispatch time produces
exactly: one WAIT row, the full 1800-iteration wait (3600 poll
increments), and then — with no further gate check — control proceeds to
the dispatch of the current row. -/
theorem pre_item_closed_free (env : Env) (cfg : Config) (n : Nat) (s : WState)
    (hstop : ∀ t, env.stop t = false) (hpause : ∀ t, env.pause t = true)
    (hclosed : ∀ t, is_within_working_hours cfg (env.now t) = false) :
    pre_item env cfg n s = .next
      { s with
          tick := s.tick + 3605,
          logs := s.logs ++
            [{ time := s.tick + 4, profileUrl := none, status := "WAIT",
               details := "Outside working hours. Sleeping 1 hour.",
               elapsed_sec := none }] } := by
  rw [pre_item]
  rw [hstop s.tick]
  simp only [Bool.false_eq_true, if_false]
  rw [pause_wait_free env n (tickInc s) (hpause _), res_to_step_inr]
  rw [hstop _]
  simp only [Bool.false_eq_true, if_false]
  rw [hclosed _]
  simp only [Bool.false_eq_true, if_false]
  rw [gate_wait_free env n hstop hpause 1800, res_to_step_inr]
  rw [hstop _]
  simp only [Bool.false_eq_true, if_false]
  cases s
  simp [tickInc, add_log]

theorem lt_length_of_getElem?_some {α : Type} {l : List α} {i : Nat} {a : α}
    (h : l[i]? = some a) : i < l.length := by
  by_contra hn
  push_neg at hn
  rw [List.getElem?_eq_none hn] at h
  cases h

/-- Python `int()` truncation agrees with the floor on the nonnegative
rationals produced by the ETA computation. -/
theorem int_trunc_eq_floor (q : ℚ) (h : 0 ≤ q) : int_trunc q = ⌊q⌋ := by
  rw [Rat.floor_def, int_trunc]
  obtain ⟨m, hm⟩ := Int.eq_ofNat_of_zero_le (Rat.num_nonneg.mpr h)
  rw [hm]
  rfl

/-- The UI status is Running or Paused exactly when the `is_running` flag
is set (`src/app.py` lines 365-367). -/
theorem control_state_running_iff (ss : Session) :
    (control_state ss = .Running ∨ control_state ss = .Paused)
      ↔ ss.is_running = true := by
  cases hr : ss.is_running <;> cases hp : ss.is_paused <;>
    cases hs : ss.is_stopped <;> simp [control_state, hr, hp, hs]

/-! ## Concrete fixtures for the counterexamples and witnesses -/

/-- A successful launch response: HTTP 200 with a container id. -/
def httpOK : Except String HttpResponse :=
  Except.ok { status_code := 200, text := "", jsonBody := some ⟨[("containerId", "c1")]⟩ }

/-- Working hours 9-17, zero pacing delays, no extended breaks. -/
def cfg1 : Config :=
  { api_key := "k", agent_id := "a", start_hour := 9, end_hour := 17
  , min_delay := 0, max_delay := 0, extended_break_chance := 0
  , extended_break_min := 0, extended_break_max := 0 }

/-- Free-running environment whose clock reads Saturday 10:00 forever:
no stop, no pause, successful launches and writes. -/
def env1 : Env :=
  { stop := fun _ => false, pause := fun _ => true
  , now := fun _ => { weekday := 5, hour := 10 }
  , http := fun _ => httpOK
  , rand_uniform := fun _ => 0, rand_float := fun _ => 0
  , rand_int := fun _ => 0, elapsed := fun _ => 1
  , write_ok := fun _ => true }

/-- Like `env1` but the clock reads Monday 10:00 forever (gate open). -/
def env2 : Env :=
  { env1 with now := fun _ => { weekday := 0, hour := 10 } }

/-- Like `env2` but every ledger write fails. -/
def env2f : Env :=
  { env2 with write_ok := fun _ => false }

/-- An environment whose stop signal is raised from the outset. -/
def envStopped : Env :=
  { env2 with stop := fun _ => true }

/-- The single work item used by the concrete runs. -/
def item1 : Item := { profileUrl := "u1", message := "m1" }

/-! ## Claims -/

/-- C1 (amended): when the working-hours gate is closed at dispatch time
(and stop/pause are silent), the engine emits a WAIT log and enters the
bounded one-hour-equivalent wait (1800 iterations, 3600 poll increments:
the WAIT row is logged at poll time `tick + 4` and the item's START row at
`tick + 3605`), and then dispatches the item to the Action Client WITHOUT
re-checking the gate — here the gate is closed at every instant and the
START row still appears. -/
theorem C1_thm (env : Env) (cfg : Config) (n : Nat) (row : Item)
    (rest : List Item) (s : WState)
    (hstop : ∀ t, env.stop t = false) (hpause : ∀ t, env.pause t = true)
    (hclosed : ∀ t, is_within_working_hours cfg (env.now t) = false) :
    ((worker env cfg n (row :: rest) s).state.logs)[s.logs.length]?
        = some { time := s.tick + 4, profileUrl := none, status := "WAIT"
               , details := "Outside working hours. Sleeping 1 hour."
               , elapsed_sec := none }
  ∧ ((worker env cfg n (row :: rest) s).state.logs)[s.logs.length + 1]?
        = some { time := s.tick + 3605, profileUrl := some row.profileUrl
               , status := "START", details := "Launching phantom…"
               , elapsed_sec := none } := by
  rw [worker, pre_item_closed_free env cfg n s hstop hpause hclosed, step_run_next]
  obtain ⟨ds, dc, dm, dr, dg, Δ₁, dΔ⟩ := dispatch_item_state env cfg n row
    { s with
        tick := s.tick + 3605,
        logs := s.logs ++
          [{ time := s.tick + 4, profileUrl := none, status := "WAIT",
             details := "Outside working hours. Sleeping 1 hour.",
             elapsed_sec := none }] }
  have hse : start_event
      { s with
          tick := s.tick + 3605,
          logs := s.logs ++
            [{ time := s.tick + 4, profileUrl := none, status := "WAIT",
               details := "Outside working hours. Sleeping 1 hour.",
               elapsed_sec := none }] } row.profileUrl
      = { time := s.tick + 3605, profileUrl := some row.profileUrl
        , status := "START", details := "Launching phantom…"
        , elapsed_sec := none } := rfl
  rw [hse] at dg
  cases hd : dispatch_item env cfg n row
      { s with
          tick := s.tick + 3605,
          logs := s.logs ++
            [{ time := s.tick + 4, profileUrl := none, status := "WAIT",
               details := "Outside working hours. Sleeping 1 hour.",
               elapsed_sec := none }] } with
  | stuck r1 =>
    rw [hd] at dg dΔ
    simp only [StepRes.state_stuck] at dg dΔ
    rw [step_run_stuck, Res.state_inl]
    constructor
    · rw [dΔ]
      simp only [List.append_assoc]
      rw [List.getElem?_append_right (Nat.le_refl _)]
      simp
    · simpa using dg
  | brk r1 =>
    rw [hd] at dg dΔ
    simp only [StepRes.state_brk] at dg dΔ
    rw [step_run_brk, Res.state_inr]
    constructor
    · show (finish r1).logs[s.logs.length]? = _
      rw [finish, dΔ]
      simp only [List.append_assoc]
      rw [List.getElem?_append_right (Nat.le_refl _)]
      simp
    · show (finish r1).logs[s.logs.length + 1]? = _
      rw [finish]
      simpa using dg
  | next r1 =>
    rw [hd] at dg dΔ
    simp only [StepRes.state_next] at dg dΔ
    rw [step_run_next]
    obtain ⟨k2, m2, ws2, wc2, wm2, wb2, Δ₂, wΔ2⟩ := worker_effects env cfg n rest r1
    have hlt : s.logs.length + 1 < r1.logs.length := by
      have := lt_length_of_getElem?_some dg
      simpa using this
    constructor
    · rw [wΔ2, List.getElem?_append_left (by omega), dΔ]
      simp only [List.append_assoc]
      rw [List.getElem?_append_right (Nat.le_refl _)]
      simp
    · rw [wΔ2, List.getElem?_append_left hlt]
      simpa using dg

set_option maxRecDepth 1000000 in
/-- C1 counterexample: with working hours 9-17 and a clock that reads
Saturday 10:00 forever (gate closed at every instant), the engine logs
WAIT, sleeps the hour, and then calls the Action Client anyway (START and
SUCCESS rows for the item): the claim that the Action Client is not
invoked until the gate is open is false on the code. -/
theorem C1_cex :
    env1.now = (fun _ => { weekday := 5, hour := 10 })
  ∧ is_within_working_hours cfg1 { weekday := 5, hour := 10 } = false
  ∧ ((worker env1 cfg1 1 [item1] (init_wstate [] [])).state.logs.map LogEvent.status
      = ["WAIT", "START", "SUCCESS"])
  ∧ startUrls ((worker env1 cfg1 1 [item1] (init_wstate [] [])).state.logs)
      = ["u1"] :=
  ⟨rfl, rfl, by with_unfolding_all rfl, by with_unfolding_all rfl⟩

/-- Witness for C1: the amended theorem applied to the concrete closed-gate
environment. -/
theorem C1_wit :
    ((worker env1 cfg1 0 [item1] (init_wstate [] [])).state.logs)[(0:Nat)]?
        = some { time := 0 + 4, profileUrl := none, status := "WAIT"
               , details := "Outside working hours. Sleeping 1 hour."
               , elapsed_sec := none }
  ∧ ((worker env1 cfg1 0 [item1] (init_wstate [] [])).state.logs)[0 + 1]?
        = some { time := 0 + 3605, profileUrl := some item1.profileUrl
               , status := "START", details := "Launching phantom…"
               , elapsed_sec := none } :=
  C1_thm env1 cfg1 0 item1 [] (init_wstate [] [])
    (fun _ => rfl) (fun _ => rfl) (fun _ => rfl)

/-- A second work item, already processed in some scenarios. -/
def item2 : Item := { profileUrl := "u2", message := "m2" }

/-- C2: the run queue is exactly the loaded items minus the ProcessedSet,
in source order (a sublist of the input, no re-ordering); the keys
dispatched by any run over that queue form an initial segment of the queue
keys in queue order (no re-queuing, no skipping ahead); and no key that was
in the ProcessedSet at run start is ever dispatched. -/
theorem C2_thm (df : List Item) (processed disk : List String) (env : Env)
    (cfg : Config) (n : Nat) :
    (run_queue df processed).Sublist df
  ∧ (∀ row ∈ run_queue df processed, processed.contains row.profileUrl = false)
  ∧ (∀ row ∈ df, processed.contains row.profileUrl = false →
      row ∈ run_queue df processed)
  ∧ (∃ k, startUrls ((worker env cfg n (run_queue df processed)
        (init_wstate processed disk)).state.logs)
      = ((run_queue df processed).map Item.profileUrl).take k)
  ∧ (∀ u ∈ startUrls ((worker env cfg n (run_queue df processed)
        (init_wstate processed disk)).state.logs),
      processed.contains u = false) := by
  obtain ⟨k, m, ws, wc, wm, wb, Δ, wΔ⟩ :=
    worker_effects env cfg n (run_queue df processed) (init_wstate processed disk)
  have hmem : ∀ row ∈ run_queue df processed,
      processed.contains row.profileUrl = false := by
    intro row hr
    have := (List.mem_filter.mp hr).2
    simpa using this
  refine ⟨List.filter_sublist df, hmem, ?_, ?_, ?_⟩
  · intro row hd hc
    refine List.mem_filter.mpr ⟨hd, ?_⟩
    simpa using hc
  · exact ⟨k, by simpa [init_wstate, startUrls] using ws⟩
  · intro u hu
    rw [ws] at hu
    simp only [init_wstate, startUrls, List.filterMap_nil, List.nil_append] at hu
    have hu2 : u ∈ (run_queue df processed).map Item.profileUrl :=
      List.mem_of_mem_take hu
    obtain ⟨row, hrow, hkey⟩ := List.mem_map.mp hu2
    rw [← hkey]
    exact hmem row hrow

/-- Witness for C2: a concrete queue with one processed and one fresh key;
the fresh item is in the queue and the processed key is excluded. -/
theorem C2_wit :
    item1 ∈ run_queue [item1, item2] ["u2"]
  ∧ (["u2"] : List String).contains item2.profileUrl = true :=
  ⟨(C2_thm [item1, item2] ["u2"] [] env2 cfg1 0).2.2.1 item1 (by decide) (by decide),
   by decide⟩

/-- The session in which every loaded item is already processed: the run
queue is empty, yet `start` accepts. -/
def ss0 : Session :=
  { df := some [item1], processed_profiles := ["u1"], logs := []
  , is_running := false, is_paused := false, is_stopped := false
  , completed := 0, total := 0, avg_secs := none
  , stop_event := false, pause_event := true }

/-- C3 counterexample: with a CSV loaded whose single row is already in
the ProcessedSet, the run queue is empty, and the claim says Start must
reject — but the code accepts: it spawns the worker on the empty queue and
sets the state to Running. -/
theorem C3_cex :
    run_queue [item1] ["u1"] = []
  ∧ (start "k" "a" ss0).2 = some []
  ∧ (start "k" "a" ss0).1.is_running = true
  ∧ control_state (start "k" "a" ss0).1 = .Running := by decide

/-- C3 (amended): Start rejects (a no-op returning the session unchanged
and spawning no worker) when no CSV is loaded, when either credential is
empty, or when the engine is already Running or Paused; otherwise — even
when the run queue is empty — it resets metrics and logs, sets state
Running, and spawns the worker thread on the run queue. -/
theorem C3_thm :
    (∀ k a ss, ss.df = none → start k a ss = (ss, none))
  ∧ (∀ a ss, start "" a ss = (ss, none))
  ∧ (∀ k ss, start k "" ss = (ss, none))
  ∧ (∀ k a ss, ss.is_running = true → start k a ss = (ss, none))
  ∧ (∀ k a ss, control_state ss = .Running ∨ control_state ss = .Paused →
      start k a ss = (ss, none))
  ∧ (∀ k a ss df, ss.df = some df → k ≠ "" → a ≠ "" → ss.is_running = false →
      start k a ss =
        ({ ss with
            total := (run_queue df ss.processed_profiles).length
            completed := 0
            logs := []
            is_stopped := false
            stop_event := false
            pause_event := true
            is_paused := false
            is_running := true
            avg_secs := none }, some (run_queue df ss.processed_profiles))) := by
  have hrun : ∀ k a (ss : Session), ss.is_running = true → start k a ss = (ss, none) := by
    intro k a ss h
    cases hdf : ss.df with
    | none => simp [start, hdf]
    | some df =>
      by_cases hc : k = "" ∨ a = ""
      · simp [start, hdf, hc]
      · simp [start, hdf, hc, h]
  refine ⟨?_, ?_, ?_, hrun, ?_, ?_⟩
  · intro k a ss h
    simp [start, h]
  · intro a ss
    cases hdf : ss.df with
    | none => simp [start, hdf]
    | some df => simp [start, hdf]
  · intro k ss
    cases hdf : ss.df with
    | none => simp [start, hdf]
    | some df => simp [start, hdf]
  · intro k a ss h
    exact hrun k a ss ((control_state_running_iff ss).mp h)
  · intro k a ss df hdf hk ha hr
    simp [start, hdf, hk, ha, hr]

/-- Witness for C3: the amended theorem applied at a concrete session. -/
theorem C3_wit :
    start "k" "a" { ss0 with is_running := true } = ({ ss0 with is_running := true }, none)
  ∧ start "k" "a" ss0 =
      ({ ss0 with
          total := 0, completed := 0, logs := [], is_stopped := false
          , stop_event := false, pause_event := true, is_paused := false
          , is_running := true, avg_secs := none }, some []) := by
  constructor
  · exact (C3_thm).2.2.2.1 "k" "a" { ss0 with is_running := true } rfl
  · have h := (C3_thm).2.2.2.2.2 "k" "a" ss0 [item1] rfl (by decide) (by decide) rfl
    rw [h]
    decide

/-- C4: Stop is a no-op unless the state is Running or Paused (and when it
applies, the state becomes Stopped); and the cancellation signal is
observed at every suspension point within one poll increment: a worker at
an item boundary with the stop signal set exits immediately without
dispatching (one observation, no new log row), the pacing sleep and the
gate wait exit at their very next poll, and the pause poll observes stop
one increment after its pause check. -/
theorem C4_thm :
    (∀ ss : Session, control_state ss ≠ .Running → control_state ss ≠ .Paused →
      stop ss = ss)
  ∧ (∀ ss : Session, ss.is_running = true → control_state (stop ss) = .Stopped)
  ∧ (∀ (env : Env) (cfg : Config) (n : Nat) (row : Item) (rest : List Item)
      (s : WState), env.stop s.tick = true →
      worker env cfg n (row :: rest) s
        = .inr { s with tick := s.tick + 1, is_running := false })
  ∧ (∀ (env : Env) (n : Nat) (delay slept : ℚ) (fuel : Nat) (s : WState),
      env.stop s.tick = true → slept < delay →
      pacing_sleep env n delay (fuel + 1) slept s = .inr (tickInc s))
  ∧ (∀ (env : Env) (n k : Nat) (s : WState), env.stop s.tick = true →
      gate_wait env n (k + 1) s = .inr (tickInc s))
  ∧ (∀ (env : Env) (fuel : Nat) (s : WState), env.pause s.tick = false →
      env.stop (s.tick + 1) = true →
      pause_wait env (fuel + 1) s = .inr (tickInc (tickInc s))) := by
  refine ⟨?_, ?_, ?_, ?_, ?_, ?_⟩
  · intro ss h1 h2
    have hr : ¬ ss.is_running = true := by
      intro hr
      rcases (control_state_running_iff ss).mpr hr with h | h
      · exact h1 h
      · exact h2 h
    simp [stop, hr]
  · intro ss hr
    simp [stop, hr, control_state]
  · intro env cfg n row rest s h
    rw [worker, pre_item]
    rw [h]
    rfl
  · intro env n delay slept fuel s h hsl
    rw [pacing_sleep]
    simp [hsl, h]
  · intro env n k s h
    rw [gate_wait]
    simp [h]
  · intro env fuel s hp h
    rw [pause_wait]
    simp only [hp, Bool.false_eq_true, if_false]
    have h2 : env.stop (tickInc s).tick = true := h
    simp [h2]

/-- Witness for C4: the conjuncts applied to a stopped-from-the-outset
environment and an idle session. -/
theorem C4_wit :
    stop { ss0 with is_stopped := true } = { ss0 with is_stopped := true }
  ∧ control_state (stop { ss0 with is_running := true }) = .Stopped
  ∧ worker envStopped cfg1 0 [item1] (init_wstate [] [])
      = .inr { init_wstate [] [] with tick := 0 + 1, is_running := false }
  ∧ pacing_sleep envStopped 0 1 1 0 (init_wstate [] [])
      = .inr (tickInc (init_wstate [] []))
  ∧ gate_wait envStopped 0 1800 (init_wstate [] [])
      = .inr (tickInc (init_wstate [] []))
  ∧ pause_wait { envStopped with pause := fun _ => false } 1 (init_wstate [] [])
      = .inr (tickInc (tickInc (init_wstate [] []))) := by
  refine ⟨?_, ?_, ?_, ?_, ?_, ?_⟩
  · exact (C4_thm).1 _ (by decide) (by decide)
  · exact (C4_thm).2.1 _ rfl
  · exact (C4_thm).2.2.1 envStopped cfg1 0 item1 [] (init_wstate [] []) rfl
  · exact (C4_thm).2.2.2.1 envStopped 0 1 0 0 (init_wstate [] []) rfl
      (by with_unfolding_all decide)
  · exact (C4_thm).2.2.2.2.1 envStopped 0 1799 (init_wstate [] []) rfl
  · exact (C4_thm).2.2.2.2.2 { envStopped with pause := fun _ => false } 0
      (init_wstate [] []) rfl rfl

/-- C5 counterexample: an HTTP 200 response whose JSON body contains no
container/job identifier is still classified as Success — so "Success
exactly when the response is HTTP 200 with a JSON body containing a
container/job identifier" is false on the code. -/
theorem C5_cex :
    launch_phantom
        (fun _ => Except.ok { status_code := 200, text := "", jsonBody := some ⟨[]⟩ })
        "k" "a" "u1" "m1" 3 = .ok ⟨[]⟩
  ∧ Json.get ⟨[]⟩ "containerId" = none := by
  constructor
  · rfl
  · rfl

/-- C5 (amended): the Action Client request carries a bounded 30-second
timeout; the outcome is Success exactly when the response is HTTP 200 with
a parseable JSON body (the presence of a container identifier is not
required); a non-200 status yields a Failure with a human-readable
"API Error" reason, a transport error a "Network error" reason — the
classification is total (never throws past the boundary). -/
theorem C5_thm :
    (∀ k a p m d, (launch_request k a p m d).timeout = 30)
  ∧ (∀ (net : LaunchRequest → Except String HttpResponse) k a p m d,
      (∃ j, launch_phantom net k a p m d = .ok j)
        ↔ ∃ r, net (launch_request k a p m d) = .ok r
            ∧ r.status_code = 200 ∧ r.jsonBody.isSome = true)
  ∧ (∀ (net : LaunchRequest → Except String HttpResponse) k a p m d e,
      net (launch_request k a p m d) = .error e →
      launch_phantom net k a p m d = .err ("Network error: " ++ e))
  ∧ (∀ (net : LaunchRequest → Except String HttpResponse) k a p m d r,
      net (launch_request k a p m d) = .ok r → r.status_code ≠ 200 →
      launch_phantom net k a p m d
        = .err ("API Error: " ++ toString r.status_code ++ " - " ++ r.text)) := by
  refine ⟨fun _ _ _ _ _ => rfl, ?_, ?_, ?_⟩
  · intro net k a p m d
    rw [launch_phantom]
    cases hnet : net (launch_request k a p m d) with
    | error e => simp [hnet]
    | ok r =>
      by_cases hs : r.status_code = 200
      · cases hb : r.jsonBody with
        | none => simp [hnet, hs, hb]
        | some j => simp [hnet, hs, hb]
      · simp [hnet, hs]
  · intro net k a p m d e hnet
    rw [launch_phantom, hnet]
  · intro net k a p m d r hnet hs
    rw [launch_phantom, hnet]
    simp [hs]

/-- Witness for C5: the amended theorem applied to a concrete network
oracle returning a 404. -/
theorem C5_wit :
    (launch_request "k" "a" "u1" "m1" 3).timeout = 30
  ∧ launch_phantom
      (fun _ => Except.ok { status_code := 404, text := "nope", jsonBody := none })
      "k" "a" "u1" "m1" 3 = .err ("API Error: " ++ toString 404 ++ " - " ++ "nope") :=
  ⟨(C5_thm).1 "k" "a" "u1" "m1" 3,
   (C5_thm).2.2.2
     (fun _ => Except.ok { status_code := 404, text := "nope", jsonBody := none })
     "k" "a" "u1" "m1" 3 _ rfl (by decide)⟩

set_option maxRecDepth 100000 in
/-- C6 counterexample: a run in which every ledger write fails produces
exactly the same log rows as the run in which every write succeeds (a
START row and a SUCCESS row, nothing else) — the write failure is silently
swallowed, not logged; only the file differs, while the in-memory set
keeps the key and the run completes. -/
theorem C6_cex :
    (worker env2f cfg1 1 [item1] (init_wstate [] [])).state.logs
      = [{ time := 4, profileUrl := some "u1", status := "START"
         , details := "Launching phantom…", elapsed_sec := none },
         { time := 5, profileUrl := some "u1", status := "SUCCESS"
         , details := "Container ID: c1", elapsed_sec := some 1 }]
  ∧ (worker env2 cfg1 1 [item1] (init_wstate [] [])).state.logs
      = [{ time := 4, profileUrl := some "u1", status := "START"
         , details := "Launching phantom…", elapsed_sec := none },
         { time := 5, profileUrl := some "u1", status := "SUCCESS"
         , details := "Container ID: c1", elapsed_sec := some 1 }]
  ∧ (worker env2f cfg1 1 [item1] (init_wstate [] [])).state.disk = []
  ∧ (worker env2 cfg1 1 [item1] (init_wstate [] [])).state.disk = ["u1"]
  ∧ (worker env2f cfg1 1 [item1] (init_wstate [] [])).state.processed = ["u1"]
  ∧ (worker env2f cfg1 1 [item1] (init_wstate [] [])).state.completed = 1 := by
  refine ⟨?_, ?_, ?_, ?_, ?_, ?_⟩ <;> with_unfolding_all rfl

/-- C6 (amended): a failed ledger save leaves the file unchanged and a
successful one rewrites the entire set; write outcomes and file contents
never influence anything observable about the run except the file itself
(the failure is silent — no log row — and not fatal: control flow, logs,
counters and the in-memory set are identical); and on a successful action
with a successful write the file equals the full updated in-memory set. -/
theorem C6_thm :
    (∀ (s d : List String), save_processed_profiles_to_disk false s d = d)
  ∧ (∀ (s d : List String), save_processed_profiles_to_disk true s d = s)
  ∧ (∀ (env : Env) (w : Nat → Bool) (cfg : Config) (n : Nat)
      (items : List Item) (s s' : WState), scrub s' = scrub s →
      scrubR (worker { env with write_ok := w } cfg n items s')
        = scrubR (worker env cfg n items s))
  ∧ (∀ (env : Env) (cfg : Config) (n : Nat) (row : Item) (s : WState)
      (txt : String) (j : Json),
      env.http s.tick = .ok { status_code := 200, text := txt, jsonBody := some j } →
      env.write_ok (s.tick + 1) = true →
      (dispatch_item env cfg n row s).state.disk
        = set_add s.processed row.profileUrl) := by
  refine ⟨fun _ _ => rfl, fun _ _ => rfl, ?_, ?_⟩
  · intro env w cfg n items s s' h
    exact worker_scrub env w cfg n items s s' h
  · intro env cfg n row s txt j hhttp hw
    rw [dispatch_item]
    have hlaunch : launch_phantom
        (fun _ => env.http (add_log s (start_event s row.profileUrl)).tick)
        cfg.api_key cfg.agent_id row.profileUrl row.message
        (env.rand_int (add_log s (start_event s row.profileUrl)).tick)
        = .ok j := by
      rw [launch_phantom]
      have : (add_log s (start_event s row.profileUrl)).tick = s.tick := rfl
      rw [this, hhttp]
      simp
    rw [hlaunch, pacing_stage]
    rw [dtail_disk, update_metrics_disk]
    have htick : (add_log (tickInc (add_log s (start_event s row.profileUrl)))
        { time := (tickInc (add_log s (start_event s row.profileUrl))).tick
        , profileUrl := some row.profileUrl, status := "SUCCESS"
        , details := "Container ID: " ++ ((j.get "containerId").getD "None")
        , elapsed_sec := some (env.elapsed (add_log s (start_event s row.profileUrl)).tick) }).tick
        = s.tick + 1 := rfl
    simp only [record_outcome, htick, hw, save_processed_profiles_to_disk, if_true]
    split <;> rfl

/-- Witness for C6: the amended theorem applied to the concrete
failing-writes environment and a concrete successful dispatch. -/
theorem C6_wit :
    save_processed_profiles_to_disk false ["x"] [] = []
  ∧ save_processed_profiles_to_disk true ["x"] [] = ["x"]
  ∧ scrubR (worker { env2 with write_ok := fun _ => false } cfg1 0 [item1]
        (init_wstate [] []))
      = scrubR (worker env2 cfg1 0 [item1] (init_wstate [] []))
  ∧ (dispatch_item env2 cfg1 0 item1 (init_wstate [] [])).state.disk
      = set_add [] item1.profileUrl :=
  ⟨(C6_thm).1 ["x"] [],
   (C6_thm).2.1 ["x"] [],
   (C6_thm).2.2.1 env2 (fun _ => false) cfg1 0 [item1]
     (init_wstate [] []) (init_wstate [] []) rfl,
   (C6_thm).2.2.2 env2 cfg1 0 item1 (init_wstate [] []) ""
     ⟨[("containerId", "c1")]⟩ rfl rfl⟩

/-- C7: starting from a fresh run state, the completed counter equals the
number of terminal (SUCCESS or ERROR) log rows at every run outcome and
never exceeds the queue length; and an accepted Start fixes `total` to the
run-queue length. -/
theorem C7_thm :
    (∀ (env : Env) (cfg : Config) (n : Nat) (df : List Item)
      (p d : List String),
      (worker env cfg n (run_queue df p) (init_wstate p d)).state.completed
        = countTerm ((worker env cfg n (run_queue df p) (init_wstate p d)).state.logs)
      ∧ (worker env cfg n (run_queue df p) (init_wstate p d)).state.completed
          ≤ (run_queue df p).length)
  ∧ (∀ (k a : String) (ss : Session) (df : List Item),
      ss.df = some df → k ≠ "" → a ≠ "" → ss.is_running = false →
      (start k a ss).1.total = (run_queue df ss.processed_profiles).length) := by
  constructor
  · intro env cfg n df p d
    obtain ⟨k, m, ws, wc, wm, wb, Δ, wΔ⟩ :=
      worker_effects env cfg n (run_queue df p) (init_wstate p d)
    constructor
    · rw [wm, wc]
      simp [init_wstate, countTerm]
    · rw [wm]
      simpa [init_wstate] using wb
  · intro k a ss df hdf hk ha hr
    simp [start, hdf, hk, ha, hr]

/-- Witness for C7: the start-total part applied at a concrete session. -/
theorem C7_wit :
    (start "k" "a" { ss0 with processed_profiles := [] }).1.total
      = (run_queue [item1] []).length := by
  have h := (C7_thm).2 "k" "a" { ss0 with processed_profiles := [] } [item1]
    rfl (by decide) (by decide) rfl
  simpa using h

/-- C8: the pacing model never flags an extended break when
`extendedBreakChance = 0` (for any valid `random.random()` draw, which is
nonnegative), always flags one when the chance is 100 (the draw is below
1), in which case the delay is the base delay plus the drawn extension;
and for any valid draw fraction the extension lies within
`[extendedMin, extendedMax]`. -/
theorem C8_thm (cfg : Config) (rBase rChance rExt : ℚ) :
    (cfg.extended_break_chance = 0 → 0 ≤ rChance →
      (next_delay cfg rBase rChance rExt).2 = false)
  ∧ (cfg.extended_break_chance = 100 → rChance < 1 →
      (next_delay cfg rBase rChance rExt).2 = true
      ∧ (next_delay cfg rBase rChance rExt).1
          = (cfg.min_delay + rBase * (cfg.max_delay - cfg.min_delay))
            + (cfg.extended_break_min
                + rExt * (cfg.extended_break_max - cfg.extended_break_min)))
  ∧ (0 ≤ rExt → rExt ≤ 1 →
      cfg.extended_break_min ≤ cfg.extended_break_max →
      cfg.extended_break_min
          ≤ cfg.extended_break_min
              + rExt * (cfg.extended_break_max - cfg.extended_break_min)
      ∧ cfg.extended_break_min
          + rExt * (cfg.extended_break_max - cfg.extended_break_min)
          ≤ cfg.extended_break_max) := by
  refine ⟨?_, ?_, ?_⟩
  · intro h0 hr
    have hlt : ¬ rChance < (cfg.extended_break_chance : ℚ) / 100 := by
      rw [h0]
      push_cast
      rw [zero_div]
      exact not_lt.mpr hr
    simp [next_delay, hlt]
  · intro h100 hr
    have hlt : rChance < (cfg.extended_break_chance : ℚ) / 100 := by
      rw [h100]
      push_cast
      norm_num
      exact hr
    simp [next_delay, hlt]
  · intro h0 h1 hmm
    constructor
    · nlinarith
    · nlinarith

/-- Witness for C8: chance 0 never extends; chance 100 always does. -/
theorem C8_wit :
    (next_delay cfg1 0 0 0).2 = false
  ∧ (next_delay { cfg1 with extended_break_chance := 100 } 0 0 0).2 = true
  ∧ cfg1.extended_break_min
      ≤ cfg1.extended_break_min
          + (1/2 : ℚ) * (cfg1.extended_break_max - cfg1.extended_break_min) :=
  ⟨(C8_thm cfg1 0 0 0).1 rfl (le_refl 0),
   ((C8_thm { cfg1 with extended_break_chance := 100 } 0 0 0).2.1 rfl
     (by norm_num)).1,
   ((C8_thm cfg1 0 0 (1/2)).2.2 (by norm_num) (by norm_num) (le_refl _)).1⟩

/-- C9 counterexample: with a recorded rolling average of 0 seconds the
estimator returns no ETA at all, although the claim requires
`remaining * avg` (= 0) whenever an average exists. -/
theorem C9_cex :
    compute_eta 5 0 (some 0) = (none, 5)
  ∧ (compute_eta 5 0 (some 0)).1 ≠ some (int_trunc (((5:ℤ) : ℚ) * 0)) := by
  constructor
  · with_unfolding_all rfl
  · with_unfolding_all decide

/-- C9 (amended): the estimator returns no ETA when the rolling average is
unknown OR not positive; when the average is positive it returns exactly
`int(remaining * avg)` — the product truncated to whole seconds, which
lies within one second below the exact product — together with
`remaining = max(total - completed, 0)`. -/
theorem C9_thm :
    (∀ total completed : ℤ,
      compute_eta total completed none = (none, max (total - completed) 0))
  ∧ (∀ (total completed : ℤ) (a : ℚ), a ≤ 0 →
      compute_eta total completed (some a) = (none, max (total - completed) 0))
  ∧ (∀ (total completed : ℤ) (a : ℚ), 0 < a →
      compute_eta total completed (some a)
        = (some (int_trunc ((max (total - completed) 0 : ℤ) * a)),
           max (total - completed) 0)
      ∧ ((int_trunc ((max (total - completed) 0 : ℤ) * a) : ℚ)
            ≤ (max (total - completed) 0 : ℤ) * a
         ∧ ((max (total - completed) 0 : ℤ) * a : ℚ)
            < (int_trunc ((max (total - completed) 0 : ℤ) * a) : ℚ) + 1)) := by
  refine ⟨fun _ _ => rfl, ?_, ?_⟩
  · intro total completed a h
    simp [compute_eta, h]
  · intro total completed a h
    have hn : ¬ a ≤ 0 := not_le.mpr h
    have hrem : (0 : ℤ) ≤ max (total - completed) 0 := le_max_right _ _
    have hq : (0 : ℚ) ≤ (max (total - completed) 0 : ℤ) * a := by
      apply mul_nonneg _ h.le
      exact_mod_cast hrem
    refine ⟨by simp [compute_eta, hn], ?_, ?_⟩
    · rw [int_trunc_eq_floor _ hq]
      exact Int.floor_le _
    · rw [int_trunc_eq_floor _ hq]
      exact Int.lt_floor_add_one _

/-- Witness for C9: the amended theorem at `total = 3`, `completed = 1`,
`avg = 2`. -/
theorem C9_wit :
    compute_eta 3 1 (some 2)
      = (some (int_trunc ((max ((3:ℤ) - 1) 0 : ℤ) * 2)), max ((3:ℤ) - 1) 0) :=
  ((C9_thm).2.2 3 1 2 (by norm_num)).1

/-- C10: duplicate suppression happens only at run boundaries — inside a
run there is no ProcessedSet membership re-check before dispatching, so in
any run that the stop signal never interrupts and that terminates by
itself, the dispatched keys are EXACTLY the queue keys in order,
duplicates included: a key occurring twice in the queue is dispatched
twice even though its first occurrence already succeeded. -/
theorem C10_thm (env : Env) (cfg : Config) (n : Nat) (items : List Item)
    (s r : WState) (hstop : ∀ t, env.stop t = false)
    (hrun : worker env cfg n items s = .inr r) :
    startUrls r.logs = startUrls s.logs ++ items.map Item.profileUrl :=
  worker_no_stop cfg n hstop items s r hrun

set_option maxRecDepth 100000 in
/-- Witness for C10: a queue containing the same key twice; both
occurrences are dispatched in the same run (the first one succeeds, the
second is still dispatched). -/
theorem C10_wit :
    startUrls ((worker env2 cfg1 1 [item1, item1]
        (init_wstate [] [])).state.logs) = ["u1", "u1"] := by
  cases h : worker env2 cfg1 1 [item1, item1] (init_wstate [] []) with
  | inl r =>
    have hfalse : (worker env2 cfg1 1 [item1, item1] (init_wstate [] [])).isLeft
        = false := by
      with_unfolding_all rfl
    rw [h] at hfalse
    cases hfalse
  | inr r =>
    have := C10_thm env2 cfg1 1 [item1, item1] (init_wstate [] []) r
      (fun _ => rfl) h
    simp only [Res.state_inr]
    rw [this]
    rfl
